import Mathlib

/-!
Shallow embedding of the `deepResearch` tool of
`src/app/(chat)/api/chat/route.ts` (the Deep Research Orchestrator).

External services (Firecrawl search/extract, the reasoning model, the
wall clock and the JS `URL` constructor) are modelled as an oracle
(`Env`): each outbound call of one invocation is indexed by the depth at
which it happens (every loop iteration increments `currentDepth` first,
so the depth identifies the call site), and, for search, by the query
string.  The event stream written with `dataStream.writeData` is
modelled as the list of `Event`s produced, in order.  The concurrent
extract fan-out (`urls.map(async ...)` + `Promise.all`) is modelled by
the JS scheduling it actually performs: every task runs synchronously up
to its first `await` (emitting its `pending` activity), then the
completions are processed; `Promise.all` returns the per-task results in
input order.  Timestamps (`new Date().toISOString()`) are omitted: no
property below depends on them.
-/

namespace DeepResearch

/-- Finding record `{ text, source }` accumulated in `researchState.findings`. -/
structure Finding where
  text : String
  source : String
  deriving DecidableEq, Repr

/-- One search result descriptor `{ url, title, description }`. -/
structure SearchResultItem where
  url : String
  title : String
  description : String
  deriving DecidableEq, Repr

/-- The `type` field of an activity (`search | extract | analyze | reasoning | synthesis | thought`). -/
inductive ActivityType where
  | search
  | extract
  | analyze
  | reasoning
  | synthesis
  | thought
  deriving DecidableEq, Repr

/-- The `status` field of an activity (`pending | complete | error`). -/
inductive ActivityStatus where
  | pending
  | complete
  | error
  deriving DecidableEq, Repr

/-- Payload of an `activity-delta` event as written by `addActivity`
(timestamp omitted). -/
structure ActivityContent where
  type : ActivityType
  status : ActivityStatus
  message : String
  depth : Nat
  completedSteps : Nat
  totalSteps : Nat
  deriving DecidableEq, Repr

/-- One event written to the data stream (`dataStream.writeData`). -/
inductive Event where
  | progressInit (maxDepth : Nat) (totalSteps : Nat)
  | depthDelta (current : Nat) (max : Nat) (completedSteps : Nat) (totalSteps : Nat)
  | activityDelta (a : ActivityContent)
  | sourceDelta (url : String) (title : String) (description : String)
  | finish (content : String)
  deriving DecidableEq, Repr

/-- The mutable `researchState` object of `deepResearch.execute`. -/
structure ResearchState where
  findings : List Finding
  summaries : List String
  nextSearchTopic : String
  urlToSearch : String
  currentDepth : Nat
  failedAttempts : Nat
  maxFailedAttempts : Nat
  completedSteps : Nat
  totalExpectedSteps : Nat
  deriving DecidableEq, Repr

/-- Result of one `app.search(query)` call: `success=true` with data,
`success=false`, or a thrown exception (the call is not wrapped in a
local try/catch, only in the outer one). -/
inductive SearchCallOutcome where
  | ok (data : List SearchResultItem)
  | fail
  | thrown (msg : String)
  deriving DecidableEq, Repr

/-- The `data` field of a successful `app.extract` call: either a single
record or an array of records (`if (Array.isArray(result.data))`); each
record's `data` field is the extracted text. -/
inductive ExtractData where
  | single (s : String)
  | multiple (l : List String)
  deriving DecidableEq, Repr

/-- Result of one `app.extract([url], ...)` call: success with data,
`success=false`, or a thrown exception (caught inside the per-URL task). -/
inductive ExtractCallOutcome where
  | ok (data : ExtractData)
  | fail
  | thrown
  deriving DecidableEq, Repr

/-- The `analysis` object returned by the Planner's `generateObject`
call (zod schema in `analyzeAndPlan`). -/
structure PlanAnalysis where
  summary : String
  gaps : List String
  nextSteps : List String
  shouldContinue : Bool
  nextSearchTopic : Option String
  urlToSearch : Option String
  deriving DecidableEq, Repr

/-- Oracle for the external world during one invocation.  Calls are
indexed by the `currentDepth` at which they are issued.  `parseUrl`
models the JS `new URL(url)` constructor: `none` means it throws
(e.g. on the empty string), `some h` gives `hostname`.  `timeExceeded d`
models the `timeElapsed >= timeLimit` check made while `currentDepth = d`.
`plan d = none` models `analyzeAndPlan` returning `null` (its
`generateObject` threw).  `synth` models the Synthesizer `generateText`
call: `Except.error msg` is a thrown exception, `Except.ok text` the
final analysis text. -/
structure Env where
  parseUrl : String → Option String
  timeExceeded : Nat → Bool
  search : Nat → String → SearchCallOutcome
  extract : Nat → String → ExtractCallOutcome
  plan : Nat → Option PlanAnalysis
  synth : Except String String

/-- The `addActivity` closure: increments `completedSteps` exactly when
`status === 'complete'`, then writes an `activity-delta` event whose
`depth` is the current `researchState.currentDepth` and whose
`completedSteps` is the (possibly just incremented) counter. -/
def addActivityS (st : ResearchState) (t : ActivityType) (s : ActivityStatus)
    (message : String) : ResearchState × Event :=
  let st' := match s with
    | ActivityStatus.complete => { st with completedSteps := st.completedSteps + 1 }
    | _ => st
  (st', Event.activityDelta
    { type := t, status := s, message := message, depth := st'.currentDepth,
      completedSteps := st'.completedSteps, totalSteps := st'.totalExpectedSteps })

/-- Normalization of a successful extract result into findings
(`Array.isArray(result.data)` branch): each item gets the requested URL
as `source`. -/
def normalizeData (d : ExtractData) (url : String) : List Finding :=
  match d with
  | ExtractData.single s => [{ text := s, source := url }]
  | ExtractData.multiple l => l.map (fun s => { text := s, source := url })

/-- The URLs of the fan-out whose `new URL(url)` call succeeds, paired
with their hostnames; a URL whose parse throws makes its task resolve to
`[]` before emitting any event. -/
def livePairs (env : Env) (urls : List String) : List (String × String) :=
  urls.filterMap (fun u => (env.parseUrl u).map (fun h => (u, h)))

/-- Phase 1 of the fan-out: each task runs synchronously up to its first
`await`, emitting its `pending` activity (`Analyzing <hostname>`).
`pending` never increments `completedSteps`, so all these events carry
the counter as it was when the fan-out started. -/
def extractPendingEvents (st : ResearchState) (live : List (String × String)) :
    List Event :=
  live.map (fun p => Event.activityDelta
    { type := ActivityType.extract, status := ActivityStatus.pending,
      message := "Analyzing " ++ p.2, depth := st.currentDepth,
      completedSteps := st.completedSteps, totalSteps := st.totalExpectedSteps })

/-- Phase 2 of the fan-out: each live task awaits its extract call.  On
success it emits the `complete` activity (`Extracted from <hostname>`)
and returns its findings; on `success=false` or a thrown exception it
returns `[]` (the catch block's `console.warn` is commented out — no
event).  `Promise.all(...).flat()` collects findings in input order. -/
def extractPhase2 (env : Env) (d : Nat) (live : List (String × String))
    (st : ResearchState) : ResearchState × List Event × List Finding :=
  match live with
  | [] => (st, [], [])
  | p :: rest =>
    match env.extract d p.1 with
    | ExtractCallOutcome.ok data =>
      let r1 := addActivityS st ActivityType.extract ActivityStatus.complete
        ("Extracted from " ++ p.2)
      let fs := normalizeData data p.1
      let r2 := extractPhase2 env d rest r1.1
      (r2.1, r1.2 :: r2.2.1, fs ++ r2.2.2)
    | ExtractCallOutcome.fail => extractPhase2 env d rest st
    | ExtractCallOutcome.thrown => extractPhase2 env d rest st

/-- The `extractFromUrls` helper: fans out one task per URL and gathers
events and findings.  Returns the updated state (only `completedSteps`
can change), the events emitted, and the new findings. -/
def extractFromUrls (env : Env) (urls : List String) (st : ResearchState) :
    ResearchState × List Event × List Finding :=
  let live := livePairs env urls
  let r := extractPhase2 env st.currentDepth live st
  (r.1, extractPendingEvents st live ++ r.2.1, r.2.2)

/-- JS string `a || b`: `b` when `a` is the empty string (falsy), else `a`. -/
def jsOr (a b : String) : String :=
  if a = "" then b else a

/-- JS `analysis?.field || ''`: empty string when the Planner failed
(`analysis` null) or the optional field is absent. -/
def planField (analysis : Option PlanAnalysis) (f : PlanAnalysis → Option String) : String :=
  match analysis with
  | none => ""
  | some a => (f a).getD ""

/-- JS `analysis?.summary || ''`: the summary on success, the empty
string when the Planner failed. -/
def planSummary (analysis : Option PlanAnalysis) : String :=
  match analysis with
  | none => ""
  | some a => a.summary

/-- The batch fanned out in the Extract phase:
`[researchState.urlToSearch, ...topUrls]` with `topUrls` the first 3
search-result URLs.  `urlToSearch` is prepended unconditionally, empty
or not. -/
def extractBatch (urlToSearch : String) (data : List SearchResultItem) : List String :=
  urlToSearch :: (data.take 3).map (fun r => r.url)

/-- How one iteration of the while loop ended: `brk` for `break`,
`cont` for `continue` or falling through to the next iteration,
`thrown` for an exception escaping to the outer catch. -/
inductive IterExit where
  | brk
  | cont
  | thrown (msg : String)
  deriving DecidableEq, Repr

/-- Output of one iteration body: events emitted, the (possibly
reassigned) `topic` variable, the research state, and the exit mode. -/
structure IterOut where
  events : List Event
  topic : String
  state : ResearchState
  exit : IterExit
  deriving DecidableEq, Repr

/-- One iteration of the research while loop, after the deadline check:
increment `currentDepth`, emit `depth-delta`, run the Search phase
(pending activity uses the raw `topic`; the query passed to
`app.search` is `nextSearchTopic || topic`), then the Extract fan-out,
then the Analyze phase, then the termination check. -/
def runIteration (env : Env) (maxDepth : Nat) (topic : String) (st0 : ResearchState) :
    IterOut :=
  let st1 := { st0 with currentDepth := st0.currentDepth + 1 }
  let evD := Event.depthDelta st1.currentDepth maxDepth st1.completedSteps
    st1.totalExpectedSteps
  let rSP := addActivityS st1 ActivityType.search ActivityStatus.pending
    ("Searching for \"" ++ topic ++ "\"")
  let searchTopic := jsOr rSP.1.nextSearchTopic topic
  match env.search rSP.1.currentDepth searchTopic with
  | SearchCallOutcome.thrown msg =>
    { events := [evD, rSP.2], topic := topic, state := rSP.1,
      exit := IterExit.thrown msg }
  | SearchCallOutcome.fail =>
    let rSE := addActivityS rSP.1 ActivityType.search ActivityStatus.error
      ("Search failed for \"" ++ searchTopic ++ "\"")
    let st2 := { rSE.1 with failedAttempts := rSE.1.failedAttempts + 1 }
    { events := [evD, rSP.2, rSE.2], topic := topic, state := st2,
      exit := if st2.maxFailedAttempts ≤ st2.failedAttempts then IterExit.brk
        else IterExit.cont }
  | SearchCallOutcome.ok data =>
    let rSC := addActivityS rSP.1 ActivityType.search ActivityStatus.complete
      ("Found " ++ toString data.length ++ " relevant results")
    let evSrc := data.map (fun r => Event.sourceDelta r.url r.title r.description)
    let rEx := extractFromUrls env (extractBatch rSC.1.urlToSearch data) rSC.1
    let st3 := { rEx.1 with findings := rEx.1.findings ++ rEx.2.2 }
    let rAP := addActivityS st3 ActivityType.analyze ActivityStatus.pending
      "Analyzing findings"
    let analysis := env.plan rAP.1.currentDepth
    let st4 := { rAP.1 with
      nextSearchTopic := planField analysis (fun a => a.nextSearchTopic),
      urlToSearch := planField analysis (fun a => a.urlToSearch),
      summaries := rAP.1.summaries ++ [planSummary analysis] }
    match analysis with
    | none =>
      let rAE := addActivityS st4 ActivityType.analyze ActivityStatus.error
        "Failed to analyze findings"
      let st5 := { rAE.1 with failedAttempts := rAE.1.failedAttempts + 1 }
      { events := [evD, rSP.2, rSC.2] ++ evSrc ++ rEx.2.1 ++ [rAP.2, rAE.2],
        topic := topic, state := st5,
        exit := if st5.maxFailedAttempts ≤ st5.failedAttempts then IterExit.brk
          else IterExit.cont }
    | some a =>
      let rAC := addActivityS st4 ActivityType.analyze ActivityStatus.complete a.summary
      let evs := [evD, rSP.2, rSC.2] ++ evSrc ++ rEx.2.1 ++ [rAP.2, rAC.2]
      if !a.shouldContinue || a.gaps.length == 0 then
        { events := evs, topic := topic, state := rAC.1, exit := IterExit.brk }
      else
        let newTopic := match a.gaps with
          | [] => topic
          | g :: _ => jsOr g topic
        { events := evs, topic := newTopic, state := rAC.1, exit := IterExit.cont }

/-- Output of the whole while loop: events, final `topic`, final state,
and the exception (if any) escaping to the outer catch. -/
structure LoopOut where
  events : List Event
  topic : String
  state : ResearchState
  thrown : Option String
  deriving DecidableEq, Repr

/-- The research while loop (`while currentDepth < maxDepth`), fuelled:
each entered iteration increments `currentDepth` by one, so
`fuel = maxDepth` suffices.  The deadline check (`timeElapsed >=
timeLimit`) happens inside the body, before the increment. -/
def researchLoop (env : Env) (maxDepth : Nat) :
    Nat → String → ResearchState → LoopOut
  | 0, topic, st => { events := [], topic := topic, state := st, thrown := none }
  | fuel + 1, topic, st =>
    if st.currentDepth < maxDepth then
      if env.timeExceeded st.currentDepth then
        { events := [], topic := topic, state := st, thrown := none }
      else
        let it := runIteration env maxDepth topic st
        match it.exit with
        | IterExit.brk =>
          { events := it.events, topic := it.topic, state := it.state, thrown := none }
        | IterExit.thrown msg =>
          { events := it.events, topic := it.topic, state := it.state,
            thrown := some msg }
        | IterExit.cont =>
          let r := researchLoop env maxDepth fuel it.topic it.state
          { events := it.events ++ r.events, topic := r.topic, state := r.state,
            thrown := r.thrown }
    else { events := [], topic := topic, state := st, thrown := none }

/-- Return value of `deepResearch.execute` (`data` fields inlined;
`analysis` present only on success). -/
structure ExecResult where
  success : Bool
  error : Option String
  findings : List Finding
  analysis : Option String
  completedSteps : Nat
  totalSteps : Nat
  deriving DecidableEq, Repr

/-- The fresh `researchState` of one invocation. -/
def initialState (maxDepth : Nat) : ResearchState :=
  { findings := [], summaries := [], nextSearchTopic := "", urlToSearch := "",
    currentDepth := 0, failedAttempts := 0, maxFailedAttempts := 3,
    completedSteps := 0, totalExpectedSteps := maxDepth * 5 }

/-- The whole `deepResearch.execute` body: emit `progress-init`, run the
loop, then the Synthesis phase inside the same try/catch; any exception
(a thrown search call, or a thrown Synthesizer call) reaches the outer
catch, which emits `activity{thought, error}` and returns a failure
result that still carries the accumulated findings. -/
def deepResearchExecute (env : Env) (topic : String) (maxDepth : Nat) :
    List Event × ExecResult :=
  let st0 := initialState maxDepth
  let evInit := Event.progressInit maxDepth st0.totalExpectedSteps
  let r := researchLoop env maxDepth maxDepth topic st0
  match r.thrown with
  | some msg =>
    let rErr := addActivityS r.state ActivityType.thought ActivityStatus.error
      ("Research failed: " ++ msg)
    (evInit :: (r.events ++ [rErr.2]),
     { success := false, error := some msg, findings := rErr.1.findings,
       analysis := none, completedSteps := rErr.1.completedSteps,
       totalSteps := rErr.1.totalExpectedSteps })
  | none =>
    let rSyP := addActivityS r.state ActivityType.synthesis ActivityStatus.pending
      "Preparing final analysis"
    match env.synth with
    | Except.error msg =>
      let rErr := addActivityS rSyP.1 ActivityType.thought ActivityStatus.error
        ("Research failed: " ++ msg)
      (evInit :: (r.events ++ [rSyP.2, rErr.2]),
       { success := false, error := some msg, findings := rErr.1.findings,
         analysis := none, completedSteps := rErr.1.completedSteps,
         totalSteps := rErr.1.totalExpectedSteps })
    | Except.ok text =>
      let rSyC := addActivityS rSyP.1 ActivityType.synthesis ActivityStatus.complete
        "Research completed"
      (evInit :: (r.events ++ [rSyP.2, rSyC.2, Event.finish text]),
       { success := true, error := none, findings := rSyC.1.findings,
         analysis := some text, completedSteps := rSyC.1.completedSteps,
         totalSteps := rSyC.1.totalExpectedSteps })

/-! Trace observations used to state the properties. -/

/-- The depth an event is tagged with: `current` for `depth-delta`,
`depth` for `activity-delta`, nothing for the other kinds. -/
def eventDepth : Event → Option Nat
  | Event.depthDelta c _ _ _ => some c
  | Event.activityDelta a => some a.depth
  | _ => none

/-- Whether an event is an `activity-delta` with `status=complete`. -/
def isCompleteActivity : Event → Bool
  | Event.activityDelta a => a.status = ActivityStatus.complete
  | _ => false

/-- Number of `activity-delta` events with `status=complete` in a trace. -/
def countComplete (evs : List Event) : Nat :=
  (evs.filter isCompleteActivity).length

/-- Whether an event is a `finish` event. -/
def isFinish : Event → Bool
  | Event.finish _ => true
  | _ => false

/-- Number of `finish` events in a trace. -/
def countFinish (evs : List Event) : Nat :=
  (evs.filter isFinish).length

/-- Whether an event is a `depth-delta` with `current = d`. -/
def isDepthDeltaAt (d : Nat) : Event → Bool
  | Event.depthDelta c _ _ _ => c = d
  | _ => false

/-- Number of `depth-delta` events with `current = d` in a trace. -/
def countDepthDelta (evs : List Event) (d : Nat) : Nat :=
  (evs.filter (isDepthDeltaAt d)).length

/-- Whether an event is an `activity-delta` of type `extract` with
`status=error`. -/
def isExtractError : Event → Bool
  | Event.activityDelta a =>
    a.type = ActivityType.extract && a.status = ActivityStatus.error
  | _ => false

/-- Scanning check of the depth-ordering grammar: starting with `opened`
depths 0..`opened` already announced, every `depth-delta` must announce
the next depth (`current = opened + 1`, so each depth is announced at
most once and in order), and every `activity-delta` must be tagged with
an already-announced depth (depth 0, the pre-loop depth, needs no
announcement). -/
def checkDepthOrder : Nat → List Event → Bool
  | _, [] => true
  | opened, e :: rest =>
    match e with
    | Event.depthDelta c _ _ _ => c = opened + 1 && checkDepthOrder c rest
    | Event.activityDelta a => decide (a.depth ≤ opened) && checkDepthOrder opened rest
    | _ => checkDepthOrder opened rest

/-- The highest depth announced by `depth-delta` events of a trace,
starting from `opened`. -/
def openedAfter : Nat → List Event → Nat
  | opened, [] => opened
  | opened, e :: rest =>
    match e with
    | Event.depthDelta c _ _ _ => openedAfter c rest
    | _ => openedAfter opened rest

/-- Whether an event is the `progress-init` event. -/
def isProgressInit : Event → Bool
  | Event.progressInit _ _ => true
  | _ => false

/-- A concrete URL-parse oracle for concrete runs: the empty string
throws (as `new URL('')` does), any other string parses and its
hostname is the part after the `https://` scheme prefix. -/
def parseUrlW : String → Option String :=
  fun u => if u = "" then none else some (u.drop 8)

/-- Concrete search result descriptors for concrete runs. -/
def itemA : SearchResultItem := ⟨"https://a", "A", "da"⟩

/-- Second concrete search result descriptor. -/
def itemB : SearchResultItem := ⟨"https://b", "B", "db"⟩

/-- A Planner result that stops the loop (no gaps, `shouldContinue=false`). -/
def planStop : PlanAnalysis := ⟨"s", [], [], false, none, none⟩

/-- A fully successful environment: search finds two URLs, every
extract succeeds, the Planner stops after one depth, synthesis succeeds. -/
def envW : Env :=
  ⟨parseUrlW, fun _ => false,
   fun _ _ => SearchCallOutcome.ok [itemA, itemB],
   fun _ _ => ExtractCallOutcome.ok (ExtractData.single "x"),
   fun _ => some planStop,
   Except.ok "FINAL"⟩

/-- Like `envW` but the extract call for `https://b` returns
`success=false`. -/
def envExtractFail : Env :=
  { envW with extract := fun _ u => if u = "https://b" then ExtractCallOutcome.fail
      else ExtractCallOutcome.ok (ExtractData.single "x") }

/-- Like `envW` but every search call throws. -/
def envSearchThrow : Env :=
  { envW with search := fun _ _ => SearchCallOutcome.thrown "boom" }

/-- Like `envW` but every search call returns `success=false`. -/
def envSearchFail : Env :=
  { envW with search := fun _ _ => SearchCallOutcome.fail }

/-- Like `envW` but every Planner call fails (returns `null`). -/
def envPlanFail : Env :=
  { envW with plan := fun _ => none }

/-! Basic lemmas about the extract fan-out. -/

theorem extractPhase2_spec (env : Env) (d : Nat) (live : List (String × String))
    (st : ResearchState) :
    (extractPhase2 env d live st).1 =
      { st with completedSteps :=
          st.completedSteps + countComplete (extractPhase2 env d live st).2.1 } := by
  induction live generalizing st with
  | nil => simp [extractPhase2, countComplete]
  | cons p rest ih =>
    cases h : env.extract d p.1 with
    | ok data =>
      simp only [extractPhase2, h, addActivityS, reduceIte, countComplete,
        List.filter_cons, isCompleteActivity]
      rw [ih]
      simp [countComplete]
      omega
    | fail =>
      simp only [extractPhase2, h]
      exact ih st
    | thrown =>
      simp only [extractPhase2, h]
      exact ih st

theorem countComplete_append (xs ys : List Event) :
    countComplete (xs ++ ys) = countComplete xs + countComplete ys := by
  simp [countComplete, List.filter_append]

theorem countComplete_pendings (st : ResearchState) (live : List (String × String)) :
    countComplete (extractPendingEvents st live) = 0 := by
  induction live with
  | nil => simp [extractPendingEvents, countComplete]
  | cons p rest ih =>
    simpa [extractPendingEvents, countComplete, isCompleteActivity] using ih

theorem extractPhase2_events (env : Env) (d : Nat) (live : List (String × String))
    (st : ResearchState) :
    ∀ e ∈ (extractPhase2 env d live st).2.1, ∃ a, e = Event.activityDelta a ∧
      a.type = ActivityType.extract ∧ a.status = ActivityStatus.complete ∧
      a.depth = st.currentDepth := by
  induction live generalizing st with
  | nil => simp [extractPhase2]
  | cons p rest ih =>
    intro e he
    cases h : env.extract d p.1 with
    | ok data =>
      rw [extractPhase2, h] at he
      simp only [addActivityS, reduceIte, List.mem_cons] at he
      rcases he with he | he
      · exact ⟨_, he, rfl, rfl, rfl⟩
      · rcases ih _ e he with ⟨a, ha, h1, h2, h3⟩
        exact ⟨a, ha, h1, h2, h3⟩
    | fail =>
      rw [extractPhase2, h] at he
      exact ih st e he
    | thrown =>
      rw [extractPhase2, h] at he
      exact ih st e he

theorem extractPhase2_complete_mem (env : Env) (d : Nat)
    (live : List (String × String)) (st : ResearchState) (u hn : String)
    (hm : (u, hn) ∈ live) (data : ExtractData)
    (he : env.extract d u = ExtractCallOutcome.ok data) :
    ∃ a, Event.activityDelta a ∈ (extractPhase2 env d live st).2.1 ∧
      a.type = ActivityType.extract ∧ a.status = ActivityStatus.complete ∧
      a.message = "Extracted from " ++ hn := by
  induction live generalizing st with
  | nil => simp at hm
  | cons p rest ih =>
    rcases List.mem_cons.mp hm with hp | hp
    · subst hp
      rw [extractPhase2, he]
      refine ⟨_, List.mem_cons_self _ _, rfl, rfl, rfl⟩
    · cases h : env.extract d p.1 with
      | ok data2 =>
        rw [extractPhase2, h]
        rcases ih _ hp with ⟨a, ha, h1, h2, h3⟩
        exact ⟨a, List.mem_cons_of_mem _ ha, h1, h2, h3⟩
      | fail =>
        rw [extractPhase2, h]
        exact ih st hp
      | thrown =>
        rw [extractPhase2, h]
        exact ih st hp

theorem normalizeData_source (dta : ExtractData) (u : String) :
    ∀ f ∈ normalizeData dta u, f.source = u := by
  cases dta with
  | single s => simp [normalizeData]
  | multiple l =>
    intro f hf
    simp only [normalizeData, List.mem_map] at hf
    rcases hf with ⟨s, _, rfl⟩
    rfl

theorem extractPhase2_findings (env : Env) (d : Nat) (live : List (String × String))
    (st : ResearchState) :
    ∀ f ∈ (extractPhase2 env d live st).2.2, ∃ p, p ∈ live ∧ f.source = p.1 ∧
      ∃ dta, env.extract d p.1 = ExtractCallOutcome.ok dta := by
  induction live generalizing st with
  | nil => simp [extractPhase2]
  | cons p rest ih =>
    intro f hf
    cases h : env.extract d p.1 with
    | ok data =>
      rw [extractPhase2, h] at hf
      simp only [List.mem_append] at hf
      rcases hf with hf | hf
      · exact ⟨p, List.mem_cons_self _ _, normalizeData_source data p.1 f hf, data, h⟩
      · rcases ih _ f hf with ⟨q, hq, h1, h2⟩
        exact ⟨q, List.mem_cons_of_mem _ hq, h1, h2⟩
    | fail =>
      rw [extractPhase2, h] at hf
      rcases ih st f hf with ⟨q, hq, h1, h2⟩
      exact ⟨q, List.mem_cons_of_mem _ hq, h1, h2⟩
    | thrown =>
      rw [extractPhase2, h] at hf
      rcases ih st f hf with ⟨q, hq, h1, h2⟩
      exact ⟨q, List.mem_cons_of_mem _ hq, h1, h2⟩

theorem livePairs_mem_iff (env : Env) (urls : List String) (u hn : String) :
    (u, hn) ∈ livePairs env urls ↔ u ∈ urls ∧ env.parseUrl u = some hn := by
  simp only [livePairs, List.mem_filterMap, Option.map_eq_some', Prod.mk.injEq]
  constructor
  · rintro ⟨x, hx, a, ha, rfl, rfl⟩
    exact ⟨hx, ha⟩
  · rintro ⟨hu, hp⟩
    exact ⟨u, hu, hn, hp, rfl, rfl⟩

theorem extractFromUrls_state (env : Env) (urls : List String) (st : ResearchState) :
    (extractFromUrls env urls st).1 =
      { st with completedSteps :=
          st.completedSteps + countComplete (extractFromUrls env urls st).2.1 } := by
  simp only [extractFromUrls, countComplete_append, countComplete_pendings]
  rw [extractPhase2_spec]
  simp

theorem extractFromUrls_activities (env : Env) (urls : List String)
    (st : ResearchState) :
    ∀ e ∈ (extractFromUrls env urls st).2.1, ∃ a, e = Event.activityDelta a ∧
      a.type = ActivityType.extract ∧ a.status ≠ ActivityStatus.error ∧
      a.depth = st.currentDepth := by
  intro e he
  simp only [extractFromUrls, List.mem_append] at he
  rcases he with he | he
  · simp only [extractPendingEvents, List.mem_map] at he
    rcases he with ⟨p, _, rfl⟩
    exact ⟨_, rfl, rfl, by simp, rfl⟩
  · rcases extractPhase2_events env st.currentDepth _ st e he with ⟨a, h0, h1, h2, h3⟩
    exact ⟨a, h0, h1, by simp [h2], h3⟩

theorem extractFromUrls_pending_mem (env : Env) (urls : List String)
    (st : ResearchState) (u hn : String) (hu : u ∈ urls)
    (hp : env.parseUrl u = some hn) :
    Event.activityDelta
      { type := ActivityType.extract, status := ActivityStatus.pending,
        message := "Analyzing " ++ hn, depth := st.currentDepth,
        completedSteps := st.completedSteps,
        totalSteps := st.totalExpectedSteps } ∈ (extractFromUrls env urls st).2.1 := by
  simp only [extractFromUrls, List.mem_append]
  left
  simp only [extractPendingEvents, List.mem_map]
  exact ⟨(u, hn), (livePairs_mem_iff env urls u hn).mpr ⟨hu, hp⟩, rfl⟩

theorem extractFromUrls_complete_mem (env : Env) (urls : List String)
    (st : ResearchState) (u hn : String) (data : ExtractData) (hu : u ∈ urls)
    (hp : env.parseUrl u = some hn)
    (he : env.extract st.currentDepth u = ExtractCallOutcome.ok data) :
    ∃ a, Event.activityDelta a ∈ (extractFromUrls env urls st).2.1 ∧
      a.type = ActivityType.extract ∧ a.status = ActivityStatus.complete ∧
      a.message = "Extracted from " ++ hn := by
  rcases extractPhase2_complete_mem env st.currentDepth (livePairs env urls) st u hn
    ((livePairs_mem_iff env urls u hn).mpr ⟨hu, hp⟩) data he with ⟨a, ha, h1, h2, h3⟩
  exact ⟨a, by simp only [extractFromUrls, List.mem_append]; right; exact ha, h1, h2, h3⟩

theorem extractFromUrls_findings (env : Env) (urls : List String)
    (st : ResearchState) :
    ∀ f ∈ (extractFromUrls env urls st).2.2, ∃ u, u ∈ urls ∧ f.source = u ∧
      ∃ dta, env.extract st.currentDepth u = ExtractCallOutcome.ok dta := by
  intro f hf
  simp only [extractFromUrls] at hf
  rcases extractPhase2_findings env st.currentDepth _ st f hf with ⟨p, hp, h1, h2⟩
  exact ⟨p.1, ((livePairs_mem_iff env urls p.1 p.2).mp (by simpa using hp)).1, h1, h2⟩

theorem extractFromUrls_cons_invalid (env : Env) (urls : List String)
    (st : ResearchState) (u : String) (hp : env.parseUrl u = none) :
    extractFromUrls env (u :: urls) st = extractFromUrls env urls st := by
  simp [extractFromUrls, livePairs, List.filterMap_cons, hp]

/-! Branch equations for one loop iteration. -/

theorem runIteration_search_fail (env : Env) (maxDepth : Nat) (topic : String)
    (st : ResearchState)
    (h : env.search (st.currentDepth + 1) (jsOr st.nextSearchTopic topic) =
      SearchCallOutcome.fail) :
    runIteration env maxDepth topic st =
      { events := [
          Event.depthDelta (st.currentDepth + 1) maxDepth st.completedSteps
            st.totalExpectedSteps,
          Event.activityDelta
            { type := ActivityType.search, status := ActivityStatus.pending,
              message := "Searching for \"" ++ topic ++ "\"",
              depth := st.currentDepth + 1, completedSteps := st.completedSteps,
              totalSteps := st.totalExpectedSteps },
          Event.activityDelta
            { type := ActivityType.search, status := ActivityStatus.error,
              message := "Search failed for \"" ++ jsOr st.nextSearchTopic topic ++ "\"",
              depth := st.currentDepth + 1, completedSteps := st.completedSteps,
              totalSteps := st.totalExpectedSteps }],
        topic := topic,
        state :=
          { st with
            currentDepth := st.currentDepth + 1,
            failedAttempts := st.failedAttempts + 1 },
        exit := if st.maxFailedAttempts ≤ st.failedAttempts + 1 then IterExit.brk
          else IterExit.cont } := by
  simp only [runIteration, addActivityS]
  rw [h]

theorem runIteration_search_thrown (env : Env) (maxDepth : Nat) (topic : String)
    (st : ResearchState) (msg : String)
    (h : env.search (st.currentDepth + 1) (jsOr st.nextSearchTopic topic) =
      SearchCallOutcome.thrown msg) :
    runIteration env maxDepth topic st =
      { events := [
          Event.depthDelta (st.currentDepth + 1) maxDepth st.completedSteps
            st.totalExpectedSteps,
          Event.activityDelta
            { type := ActivityType.search, status := ActivityStatus.pending,
              message := "Searching for \"" ++ topic ++ "\"",
              depth := st.currentDepth + 1, completedSteps := st.completedSteps,
              totalSteps := st.totalExpectedSteps }],
        topic := topic,
        state := { st with currentDepth := st.currentDepth + 1 },
        exit := IterExit.thrown msg } := by
  simp only [runIteration, addActivityS]
  rw [h]

theorem runIteration_plan_none (env : Env) (maxDepth : Nat) (topic : String)
    (st : ResearchState) (data : List SearchResultItem)
    (hs : env.search (st.currentDepth + 1) (jsOr st.nextSearchTopic topic) =
      SearchCallOutcome.ok data)
    (hp : env.plan (st.currentDepth + 1) = none) :
    runIteration env maxDepth topic st =
      { events := [
          Event.depthDelta (st.currentDepth + 1) maxDepth st.completedSteps
            st.totalExpectedSteps,
          Event.activityDelta
            { type := ActivityType.search, status := ActivityStatus.pending,
              message := "Searching for \"" ++ topic ++ "\"",
              depth := st.currentDepth + 1, completedSteps := st.completedSteps,
              totalSteps := st.totalExpectedSteps },
          Event.activityDelta
            { type := ActivityType.search, status := ActivityStatus.complete,
              message := "Found " ++ toString data.length ++ " relevant results",
              depth := st.currentDepth + 1, completedSteps := st.completedSteps + 1,
              totalSteps := st.totalExpectedSteps }] ++
          data.map (fun r => Event.sourceDelta r.url r.title r.description) ++
          (extractFromUrls env (extractBatch st.urlToSearch data)
            { st with
              currentDepth := st.currentDepth + 1,
              completedSteps := st.completedSteps + 1 }).2.1 ++
          [Event.activityDelta
            { type := ActivityType.analyze, status := ActivityStatus.pending,
              message := "Analyzing findings", depth := st.currentDepth + 1,
              completedSteps := st.completedSteps + 1 +
                countComplete (extractFromUrls env (extractBatch st.urlToSearch data)
                  { st with
                    currentDepth := st.currentDepth + 1,
                    completedSteps := st.completedSteps + 1 }).2.1,
              totalSteps := st.totalExpectedSteps },
          Event.activityDelta
            { type := ActivityType.analyze, status := ActivityStatus.error,
              message := "Failed to analyze findings", depth := st.currentDepth + 1,
              completedSteps := st.completedSteps + 1 +
                countComplete (extractFromUrls env (extractBatch st.urlToSearch data)
                  { st with
                    currentDepth := st.currentDepth + 1,
                    completedSteps := st.completedSteps + 1 }).2.1,
              totalSteps := st.totalExpectedSteps }],
        topic := topic,
        state :=
          { st with
            currentDepth := st.currentDepth + 1,
            completedSteps := st.completedSteps + 1 +
              countComplete (extractFromUrls env (extractBatch st.urlToSearch data)
                { st with
                  currentDepth := st.currentDepth + 1,
                  completedSteps := st.completedSteps + 1 }).2.1,
            findings := st.findings ++
              (extractFromUrls env (extractBatch st.urlToSearch data)
                { st with
                  currentDepth := st.currentDepth + 1,
                  completedSteps := st.completedSteps + 1 }).2.2,
            nextSearchTopic := "",
            urlToSearch := "",
            summaries := st.summaries ++ [""],
            failedAttempts := st.failedAttempts + 1 },
        exit := if st.maxFailedAttempts ≤ st.failedAttempts + 1 then IterExit.brk
          else IterExit.cont } := by
  simp only [runIteration, addActivityS]
  rw [hs]
  dsimp only
  simp only [extractFromUrls_state]
  rw [hp]
  simp [planField, planSummary]

theorem runIteration_plan_some (env : Env) (maxDepth : Nat) (topic : String)
    (st : ResearchState) (data : List SearchResultItem) (a : PlanAnalysis)
    (hs : env.search (st.currentDepth + 1) (jsOr st.nextSearchTopic topic) =
      SearchCallOutcome.ok data)
    (hp : env.plan (st.currentDepth + 1) = some a) :
    runIteration env maxDepth topic st =
      { events := [
          Event.depthDelta (st.currentDepth + 1) maxDepth st.completedSteps
            st.totalExpectedSteps,
          Event.activityDelta
            { type := ActivityType.search, status := ActivityStatus.pending,
              message := "Searching for \"" ++ topic ++ "\"",
              depth := st.currentDepth + 1, completedSteps := st.completedSteps,
              totalSteps := st.totalExpectedSteps },
          Event.activityDelta
            { type := ActivityType.search, status := ActivityStatus.complete,
              message := "Found " ++ toString data.length ++ " relevant results",
              depth := st.currentDepth + 1, completedSteps := st.completedSteps + 1,
              totalSteps := st.totalExpectedSteps }] ++
          data.map (fun r => Event.sourceDelta r.url r.title r.description) ++
          (extractFromUrls env (extractBatch st.urlToSearch data)
            { st with
              currentDepth := st.currentDepth + 1,
              completedSteps := st.completedSteps + 1 }).2.1 ++
          [Event.activityDelta
            { type := ActivityType.analyze, status := ActivityStatus.pending,
              message := "Analyzing findings", depth := st.currentDepth + 1,
              completedSteps := st.completedSteps + 1 +
                countComplete (extractFromUrls env (extractBatch st.urlToSearch data)
                  { st with
                    currentDepth := st.currentDepth + 1,
                    completedSteps := st.completedSteps + 1 }).2.1,
              totalSteps := st.totalExpectedSteps },
          Event.activityDelta
            { type := ActivityType.analyze, status := ActivityStatus.complete,
              message := a.summary, depth := st.currentDepth + 1,
              completedSteps := st.completedSteps + 1 +
                countComplete (extractFromUrls env (extractBatch st.urlToSearch data)
                  { st with
                    currentDepth := st.currentDepth + 1,
                    completedSteps := st.completedSteps + 1 }).2.1 + 1,
              totalSteps := st.totalExpectedSteps }],
        topic := if !a.shouldContinue || a.gaps.length == 0 then topic
          else match a.gaps with
            | [] => topic
            | g :: _ => jsOr g topic,
        state :=
          { st with
            currentDepth := st.currentDepth + 1,
            completedSteps := st.completedSteps + 1 +
              countComplete (extractFromUrls env (extractBatch st.urlToSearch data)
                { st with
                  currentDepth := st.currentDepth + 1,
                  completedSteps := st.completedSteps + 1 }).2.1 + 1,
            findings := st.findings ++
              (extractFromUrls env (extractBatch st.urlToSearch data)
                { st with
                  currentDepth := st.currentDepth + 1,
                  completedSteps := st.completedSteps + 1 }).2.2,
            nextSearchTopic := a.nextSearchTopic.getD "",
            urlToSearch := a.urlToSearch.getD "",
            summaries := st.summaries ++ [a.summary] },
        exit := if !a.shouldContinue || a.gaps.length == 0 then IterExit.brk
          else IterExit.cont } := by
  simp only [runIteration, addActivityS]
  rw [hs]
  dsimp only
  simp only [extractFromUrls_state]
  rw [hp]
  cases hc : (!a.shouldContinue || a.gaps.length == 0) with
  | true => simp [hc, planField, planSummary]
  | false => simp [hc, planField, planSummary]

/-! Unfolding lemmas for the while loop. -/

theorem researchLoop_zero (env : Env) (maxDepth : Nat) (topic : String)
    (st : ResearchState) :
    researchLoop env maxDepth 0 topic st =
      { events := [], topic := topic, state := st, thrown := none } := rfl

theorem researchLoop_done (env : Env) (maxDepth fuel : Nat) (topic : String)
    (st : ResearchState) (h : ¬ st.currentDepth < maxDepth) :
    researchLoop env maxDepth (fuel + 1) topic st =
      { events := [], topic := topic, state := st, thrown := none } := by
  simp [researchLoop, h]

theorem researchLoop_time (env : Env) (maxDepth fuel : Nat) (topic : String)
    (st : ResearchState) (h : st.currentDepth < maxDepth)
    (ht : env.timeExceeded st.currentDepth = true) :
    researchLoop env maxDepth (fuel + 1) topic st =
      { events := [], topic := topic, state := st, thrown := none } := by
  simp [researchLoop, h, ht]

theorem researchLoop_brk (env : Env) (maxDepth fuel : Nat) (topic : String)
    (st : ResearchState) (h : st.currentDepth < maxDepth)
    (ht : env.timeExceeded st.currentDepth = false)
    (he : (runIteration env maxDepth topic st).exit = IterExit.brk) :
    researchLoop env maxDepth (fuel + 1) topic st =
      { events := (runIteration env maxDepth topic st).events,
        topic := (runIteration env maxDepth topic st).topic,
        state := (runIteration env maxDepth topic st).state, thrown := none } := by
  simp only [researchLoop, h, if_true, ht, Bool.false_eq_true, if_false]
  rw [he]

theorem researchLoop_thrown (env : Env) (maxDepth fuel : Nat) (topic : String)
    (st : ResearchState) (msg : String) (h : st.currentDepth < maxDepth)
    (ht : env.timeExceeded st.currentDepth = false)
    (he : (runIteration env maxDepth topic st).exit = IterExit.thrown msg) :
    researchLoop env maxDepth (fuel + 1) topic st =
      { events := (runIteration env maxDepth topic st).events,
        topic := (runIteration env maxDepth topic st).topic,
        state := (runIteration env maxDepth topic st).state,
        thrown := some msg } := by
  simp only [researchLoop, h, if_true, ht, Bool.false_eq_true, if_false]
  rw [he]

theorem researchLoop_cont (env : Env) (maxDepth fuel : Nat) (topic : String)
    (st : ResearchState) (h : st.currentDepth < maxDepth)
    (ht : env.timeExceeded st.currentDepth = false)
    (he : (runIteration env maxDepth topic st).exit = IterExit.cont) :
    researchLoop env maxDepth (fuel + 1) topic st =
      { events := (runIteration env maxDepth topic st).events ++
          (researchLoop env maxDepth fuel (runIteration env maxDepth topic st).topic
            (runIteration env maxDepth topic st).state).events,
        topic := (researchLoop env maxDepth fuel
          (runIteration env maxDepth topic st).topic
          (runIteration env maxDepth topic st).state).topic,
        state := (researchLoop env maxDepth fuel
          (runIteration env maxDepth topic st).topic
          (runIteration env maxDepth topic st).state).state,
        thrown := (researchLoop env maxDepth fuel
          (runIteration env maxDepth topic st).topic
          (runIteration env maxDepth topic st).state).thrown } := by
  simp only [researchLoop, h, if_true, ht, Bool.false_eq_true, if_false]
  rw [he]

theorem countComplete_sources (data : List SearchResultItem) :
    countComplete (data.map fun r => Event.sourceDelta r.url r.title r.description) = 0 := by
  induction data with
  | nil => rfl
  | cons r rest ih => simp [countComplete, isCompleteActivity] at ih ⊢

theorem runIteration_currentDepth (env : Env) (maxDepth : Nat) (topic : String)
    (st : ResearchState) :
    (runIteration env maxDepth topic st).state.currentDepth = st.currentDepth + 1 := by
  cases hs : env.search (st.currentDepth + 1) (jsOr st.nextSearchTopic topic) with
  | fail => rw [runIteration_search_fail env maxDepth topic st hs]
  | thrown msg => rw [runIteration_search_thrown env maxDepth topic st msg hs]
  | ok data =>
    cases hp : env.plan (st.currentDepth + 1) with
    | none => rw [runIteration_plan_none env maxDepth topic st data hs hp]
    | some a => rw [runIteration_plan_some env maxDepth topic st data a hs hp]

theorem runIteration_preserved (env : Env) (maxDepth : Nat) (topic : String)
    (st : ResearchState) :
    (runIteration env maxDepth topic st).state.maxFailedAttempts = st.maxFailedAttempts ∧
    (runIteration env maxDepth topic st).state.totalExpectedSteps = st.totalExpectedSteps := by
  cases hs : env.search (st.currentDepth + 1) (jsOr st.nextSearchTopic topic) with
  | fail => rw [runIteration_search_fail env maxDepth topic st hs]; exact ⟨rfl, rfl⟩
  | thrown msg =>
    rw [runIteration_search_thrown env maxDepth topic st msg hs]; exact ⟨rfl, rfl⟩
  | ok data =>
    cases hp : env.plan (st.currentDepth + 1) with
    | none => rw [runIteration_plan_none env maxDepth topic st data hs hp]; exact ⟨rfl, rfl⟩
    | some a =>
      rw [runIteration_plan_some env maxDepth topic st data a hs hp]; exact ⟨rfl, rfl⟩

theorem runIteration_completedSteps (env : Env) (maxDepth : Nat) (topic : String)
    (st : ResearchState) :
    (runIteration env maxDepth topic st).state.completedSteps =
      st.completedSteps + countComplete (runIteration env maxDepth topic st).events := by
  cases hs : env.search (st.currentDepth + 1) (jsOr st.nextSearchTopic topic) with
  | fail =>
    rw [runIteration_search_fail env maxDepth topic st hs]
    simp [countComplete, isCompleteActivity]
  | thrown msg =>
    rw [runIteration_search_thrown env maxDepth topic st msg hs]
    simp [countComplete, isCompleteActivity]
  | ok data =>
    cases hp : env.plan (st.currentDepth + 1) with
    | none =>
      rw [runIteration_plan_none env maxDepth topic st data hs hp]
      simp only [countComplete_append, countComplete_sources]
      simp [countComplete, isCompleteActivity]
      omega
    | some a =>
      rw [runIteration_plan_some env maxDepth topic st data a hs hp]
      simp only [countComplete_append, countComplete_sources]
      simp [countComplete, isCompleteActivity]
      omega

theorem researchLoop_inv (env : Env) (maxDepth : Nat) :
    ∀ fuel topic st,
      st.currentDepth ≤ (researchLoop env maxDepth fuel topic st).state.currentDepth ∧
      (st.currentDepth ≤ maxDepth →
        (researchLoop env maxDepth fuel topic st).state.currentDepth ≤ maxDepth) ∧
      (researchLoop env maxDepth fuel topic st).state.maxFailedAttempts =
        st.maxFailedAttempts ∧
      (researchLoop env maxDepth fuel topic st).state.totalExpectedSteps =
        st.totalExpectedSteps ∧
      (researchLoop env maxDepth fuel topic st).state.completedSteps =
        st.completedSteps +
          countComplete (researchLoop env maxDepth fuel topic st).events := by
  intro fuel
  induction fuel with
  | zero =>
    intro topic st
    rw [researchLoop_zero]
    exact ⟨le_refl _, fun h => h, rfl, rfl, by simp [countComplete]⟩
  | succ fuel ih =>
    intro topic st
    by_cases hlt : st.currentDepth < maxDepth
    · cases htime : env.timeExceeded st.currentDepth with
      | true =>
        rw [researchLoop_time env maxDepth fuel topic st hlt htime]
        exact ⟨le_refl _, fun h => h, rfl, rfl, by simp [countComplete]⟩
      | false =>
        cases hex : (runIteration env maxDepth topic st).exit with
        | brk =>
          rw [researchLoop_brk env maxDepth fuel topic st hlt htime hex]
          dsimp only
          obtain ⟨q1, q2⟩ := runIteration_preserved env maxDepth topic st
          have hd := runIteration_currentDepth env maxDepth topic st
          have hc := runIteration_completedSteps env maxDepth topic st
          exact ⟨by omega, fun _ => by omega, q1, q2, hc⟩
        | thrown msg =>
          rw [researchLoop_thrown env maxDepth fuel topic st msg hlt htime hex]
          dsimp only
          obtain ⟨q1, q2⟩ := runIteration_preserved env maxDepth topic st
          have hd := runIteration_currentDepth env maxDepth topic st
          have hc := runIteration_completedSteps env maxDepth topic st
          exact ⟨by omega, fun _ => by omega, q1, q2, hc⟩
        | cont =>
          rw [researchLoop_cont env maxDepth fuel topic st hlt htime hex]
          dsimp only
          obtain ⟨m1, b1, p1, p2, c1⟩ := ih (runIteration env maxDepth topic st).topic
            (runIteration env maxDepth topic st).state
          obtain ⟨q1, q2⟩ := runIteration_preserved env maxDepth topic st
          have hd := runIteration_currentDepth env maxDepth topic st
          have hc := runIteration_completedSteps env maxDepth topic st
          refine ⟨by omega, fun _ => b1 (by omega), p1.trans q1, p2.trans q2, ?_⟩
          show (researchLoop env maxDepth fuel _ _).state.completedSteps = _
          rw [countComplete_append]
          omega
    · rw [researchLoop_done env maxDepth fuel topic st hlt]
      exact ⟨le_refl _, fun h => h, rfl, rfl, by simp [countComplete]⟩

/-! Lemmas about the depth-ordering checker. -/

theorem openedAfter_append (o : Nat) (xs ys : List Event) :
    openedAfter o (xs ++ ys) = openedAfter (openedAfter o xs) ys := by
  induction xs generalizing o with
  | nil => rfl
  | cons e rest ih => cases e <;> simp [openedAfter, ih]

theorem checkDepthOrder_append (o : Nat) (xs ys : List Event) :
    checkDepthOrder o (xs ++ ys) =
      (checkDepthOrder o xs && checkDepthOrder (openedAfter o xs) ys) := by
  induction xs generalizing o with
  | nil => simp [checkDepthOrder, openedAfter]
  | cons e rest ih =>
    cases e <;> simp [checkDepthOrder, openedAfter, ih, Bool.and_assoc]

theorem checkDepthOrder_flat (o : Nat) (evs : List Event)
    (h : ∀ e ∈ evs, (∀ c m cs ts, e ≠ Event.depthDelta c m cs ts) ∧
      (∀ a, e = Event.activityDelta a → a.depth ≤ o)) :
    checkDepthOrder o evs = true ∧ openedAfter o evs = o := by
  induction evs with
  | nil => exact ⟨rfl, rfl⟩
  | cons e rest ih =>
    have he := h e (List.mem_cons_self _ _)
    have hrest := ih (fun e' he' => h e' (List.mem_cons_of_mem _ he'))
    cases e with
    | depthDelta c m cs ts => exact absurd rfl (he.1 c m cs ts)
    | activityDelta a =>
      refine ⟨?_, hrest.2⟩
      simp [checkDepthOrder, hrest.1, he.2 a rfl]
    | progressInit m ts => exact ⟨hrest.1, hrest.2⟩
    | sourceDelta u t d => exact ⟨hrest.1, hrest.2⟩
    | finish c => exact ⟨hrest.1, hrest.2⟩

theorem countDepthDelta_cons (e : Event) (rest : List Event) (d : Nat) :
    countDepthDelta (e :: rest) d =
      (if isDepthDeltaAt d e then 1 else 0) + countDepthDelta rest d := by
  simp only [countDepthDelta, List.filter_cons]
  split
  · simp [Nat.add_comm]
  · simp

theorem countDepthDelta_zero_of_le (o : Nat) (evs : List Event)
    (h : checkDepthOrder o evs = true) : ∀ d, d ≤ o → countDepthDelta evs d = 0 := by
  induction evs generalizing o with
  | nil => intro d _; rfl
  | cons e rest ih =>
    intro d hd
    rw [countDepthDelta_cons]
    cases e with
    | depthDelta c m cs ts =>
      simp only [checkDepthOrder, Bool.and_eq_true, decide_eq_true_eq] at h
      have hne : isDepthDeltaAt d (Event.depthDelta c m cs ts) = false := by
        simp only [isDepthDeltaAt, decide_eq_false_iff_not]
        omega
      rw [hne]
      simp [ih c h.2 d (by omega)]
    | activityDelta a =>
      simp only [checkDepthOrder, Bool.and_eq_true] at h
      simp [isDepthDeltaAt, ih o h.2 d hd]
    | progressInit m ts =>
      simp only [checkDepthOrder] at h
      simp [isDepthDeltaAt, ih o h d hd]
    | sourceDelta u t dd =>
      simp only [checkDepthOrder] at h
      simp [isDepthDeltaAt, ih o h d hd]
    | finish c =>
      simp only [checkDepthOrder] at h
      simp [isDepthDeltaAt, ih o h d hd]

theorem countDepthDelta_le_one (o : Nat) (evs : List Event)
    (h : checkDepthOrder o evs = true) : ∀ d, countDepthDelta evs d ≤ 1 := by
  induction evs generalizing o with
  | nil => intro d; simp [countDepthDelta]
  | cons e rest ih =>
    intro d
    rw [countDepthDelta_cons]
    cases e with
    | depthDelta c m cs ts =>
      simp only [checkDepthOrder, Bool.and_eq_true, decide_eq_true_eq] at h
      by_cases hc : c = d
      · subst hc
        have h0 := countDepthDelta_zero_of_le c rest h.2 c (le_refl c)
        simp [isDepthDeltaAt, h0]
      · have hne : isDepthDeltaAt d (Event.depthDelta c m cs ts) = false := by
          simp only [isDepthDeltaAt, decide_eq_false_iff_not]
          exact hc
        rw [hne]
        simp [ih c h.2 d]
    | activityDelta a =>
      simp only [checkDepthOrder, Bool.and_eq_true] at h
      simp [isDepthDeltaAt]
      exact ih o h.2 d
    | progressInit m ts =>
      simp only [checkDepthOrder] at h
      simp [isDepthDeltaAt]
      exact ih o h d
    | sourceDelta u t dd =>
      simp only [checkDepthOrder] at h
      simp [isDepthDeltaAt]
      exact ih o h d
    | finish c =>
      simp only [checkDepthOrder] at h
      simp [isDepthDeltaAt]
      exact ih o h d

theorem countDepthDelta_one_of_opened (o : Nat) (evs : List Event)
    (h : checkDepthOrder o evs = true) :
    ∀ d, o < d → d ≤ openedAfter o evs → countDepthDelta evs d = 1 := by
  induction evs generalizing o with
  | nil => intro d h1 h2; simp only [openedAfter] at h2; omega
  | cons e rest ih =>
    intro d h1 h2
    rw [countDepthDelta_cons]
    cases e with
    | depthDelta c m cs ts =>
      simp only [checkDepthOrder, Bool.and_eq_true, decide_eq_true_eq] at h
      simp only [openedAfter] at h2
      by_cases hc : c = d
      · subst hc
        have h0 := countDepthDelta_zero_of_le c rest h.2 c (le_refl c)
        simp [isDepthDeltaAt, h0]
      · have hne : isDepthDeltaAt d (Event.depthDelta c m cs ts) = false := by
          simp only [isDepthDeltaAt, decide_eq_false_iff_not]
          exact hc
        rw [hne]
        simp [ih c h.2 d (by omega) h2]
    | activityDelta a =>
      simp only [checkDepthOrder, Bool.and_eq_true] at h
      simp only [openedAfter] at h2
      simp [isDepthDeltaAt]
      exact ih o h.2 d h1 h2
    | progressInit m ts =>
      simp only [checkDepthOrder] at h
      simp only [openedAfter] at h2
      simp [isDepthDeltaAt]
      exact ih o h d h1 h2
    | sourceDelta u t dd =>
      simp only [checkDepthOrder] at h
      simp only [openedAfter] at h2
      simp [isDepthDeltaAt]
      exact ih o h d h1 h2
    | finish c =>
      simp only [checkDepthOrder] at h
      simp only [openedAfter] at h2
      simp [isDepthDeltaAt]
      exact ih o h d h1 h2

/-- Flatness of the source-delta block: no depth announcements, no
activities. -/
theorem sources_flat (o : Nat) (data : List SearchResultItem) :
    checkDepthOrder o (data.map fun r => Event.sourceDelta r.url r.title r.description)
        = true ∧
      openedAfter o (data.map fun r => Event.sourceDelta r.url r.title r.description)
        = o := by
  apply checkDepthOrder_flat
  intro e he
  simp only [List.mem_map] at he
  rcases he with ⟨r, _, rfl⟩
  exact ⟨fun c m cs ts h => (by cases h), fun a h => (by cases h)⟩

/-- Flatness of an extract fan-out block: its events are activities at
the fan-out state's depth. -/
theorem extractFromUrls_checker (env : Env) (urls : List String)
    (st : ResearchState) :
    checkDepthOrder st.currentDepth (extractFromUrls env urls st).2.1 = true ∧
    openedAfter st.currentDepth (extractFromUrls env urls st).2.1 = st.currentDepth := by
  apply checkDepthOrder_flat
  intro e he
  rcases extractFromUrls_activities env urls st e he with ⟨a, rfl, _, _, hdep⟩
  exact ⟨fun c m cs ts h => (by cases h), fun a' h => (by cases h; exact le_of_eq hdep)⟩

/-- Every event of one iteration is an activity or depth announcement
at the new depth (or a depth-less source event); never a `finish` or a
`progress-init`. -/
theorem runIteration_events (env : Env) (maxDepth : Nat) (topic : String)
    (st : ResearchState) :
    ∀ e ∈ (runIteration env maxDepth topic st).events,
      isFinish e = false ∧ isProgressInit e = false ∧
      (∀ d, eventDepth e = some d → d = st.currentDepth + 1) := by
  cases hs : env.search (st.currentDepth + 1) (jsOr st.nextSearchTopic topic) with
  | fail =>
    rw [runIteration_search_fail env maxDepth topic st hs]
    intro e he
    simp only [List.mem_cons, List.not_mem_nil, or_false] at he
    rcases he with rfl | rfl | rfl <;>
      exact ⟨rfl, rfl, fun d hd => (by simp only [eventDepth, Option.some.injEq] at hd; omega)⟩
  | thrown msg =>
    rw [runIteration_search_thrown env maxDepth topic st msg hs]
    intro e he
    simp only [List.mem_cons, List.not_mem_nil, or_false] at he
    rcases he with rfl | rfl <;>
      exact ⟨rfl, rfl, fun d hd => (by simp only [eventDepth, Option.some.injEq] at hd; omega)⟩
  | ok data =>
    have hext := extractFromUrls_activities env (extractBatch st.urlToSearch data)
      { st with
        currentDepth := st.currentDepth + 1,
        completedSteps := st.completedSteps + 1 }
    cases hp : env.plan (st.currentDepth + 1) with
    | none =>
      rw [runIteration_plan_none env maxDepth topic st data hs hp]
      intro e he
      simp only [List.mem_append, List.mem_cons, List.mem_map,
        List.not_mem_nil, or_false] at he
      rcases he with (((rfl | rfl | rfl) | ⟨r, _, rfl⟩) | hE) | rfl | rfl
      · exact ⟨rfl, rfl, fun d hd => (by simp only [eventDepth, Option.some.injEq] at hd; omega)⟩
      · exact ⟨rfl, rfl, fun d hd => (by simp only [eventDepth, Option.some.injEq] at hd; omega)⟩
      · exact ⟨rfl, rfl, fun d hd => (by simp only [eventDepth, Option.some.injEq] at hd; omega)⟩
      · exact ⟨rfl, rfl, fun d hd => (by simp [eventDepth] at hd)⟩
      · rcases hext e hE with ⟨a, rfl, _, _, hdep⟩
        exact ⟨rfl, rfl, fun d hd =>
          (by simp only [eventDepth, Option.some.injEq] at hd; rw [← hd]; exact hdep)⟩
      · exact ⟨rfl, rfl, fun d hd => (by simp only [eventDepth, Option.some.injEq] at hd; omega)⟩
      · exact ⟨rfl, rfl, fun d hd => (by simp only [eventDepth, Option.some.injEq] at hd; omega)⟩
    | some a =>
      rw [runIteration_plan_some env maxDepth topic st data a hs hp]
      intro e he
      simp only [List.mem_append, List.mem_cons, List.mem_map,
        List.not_mem_nil, or_false] at he
      rcases he with (((rfl | rfl | rfl) | ⟨r, _, rfl⟩) | hE) | rfl | rfl
      · exact ⟨rfl, rfl, fun d hd => (by simp only [eventDepth, Option.some.injEq] at hd; omega)⟩
      · exact ⟨rfl, rfl, fun d hd => (by simp only [eventDepth, Option.some.injEq] at hd; omega)⟩
      · exact ⟨rfl, rfl, fun d hd => (by simp only [eventDepth, Option.some.injEq] at hd; omega)⟩
      · exact ⟨rfl, rfl, fun d hd => (by simp [eventDepth] at hd)⟩
      · rcases hext e hE with ⟨a', rfl, _, _, hdep⟩
        exact ⟨rfl, rfl, fun d hd =>
          (by simp only [eventDepth, Option.some.injEq] at hd; rw [← hd]; exact hdep)⟩
      · exact ⟨rfl, rfl, fun d hd => (by simp only [eventDepth, Option.some.injEq] at hd; omega)⟩
      · exact ⟨rfl, rfl, fun d hd => (by simp only [eventDepth, Option.some.injEq] at hd; omega)⟩

/-- One iteration's events pass the depth-ordering checker at the depth
the iteration starts from, and announce exactly the new depth. -/
theorem runIteration_checker (env : Env) (maxDepth : Nat) (topic : String)
    (st : ResearchState) :
    checkDepthOrder st.currentDepth (runIteration env maxDepth topic st).events = true ∧
    openedAfter st.currentDepth (runIteration env maxDepth topic st).events =
      st.currentDepth + 1 := by
  cases hs : env.search (st.currentDepth + 1) (jsOr st.nextSearchTopic topic) with
  | fail =>
    rw [runIteration_search_fail env maxDepth topic st hs]
    constructor
    · simp [checkDepthOrder]
    · simp [openedAfter]
  | thrown msg =>
    rw [runIteration_search_thrown env maxDepth topic st msg hs]
    constructor
    · simp [checkDepthOrder]
    · simp [openedAfter]
  | ok data =>
    have hE := extractFromUrls_checker env (extractBatch st.urlToSearch data)
      { st with
        currentDepth := st.currentDepth + 1,
        completedSteps := st.completedSteps + 1 }
    dsimp only at hE
    have hSrc := sources_flat (st.currentDepth + 1) data
    cases hp : env.plan (st.currentDepth + 1) with
    | none =>
      rw [runIteration_plan_none env maxDepth topic st data hs hp]
      constructor
      · simp [checkDepthOrder_append, openedAfter_append, checkDepthOrder,
          openedAfter, hE.1, hE.2, hSrc.1, hSrc.2]
      · simp [openedAfter_append, openedAfter, hE.2, hSrc.2]
    | some a =>
      rw [runIteration_plan_some env maxDepth topic st data a hs hp]
      constructor
      · simp [checkDepthOrder_append, openedAfter_append, checkDepthOrder,
          openedAfter, hE.1, hE.2, hSrc.1, hSrc.2]
      · simp [openedAfter_append, openedAfter, hE.2, hSrc.2]

theorem researchLoop_events (env : Env) (maxDepth : Nat) :
    ∀ fuel topic st, ∀ e ∈ (researchLoop env maxDepth fuel topic st).events,
      isFinish e = false ∧ isProgressInit e = false ∧
      (∀ d, eventDepth e = some d → st.currentDepth < d ∧
        d ≤ (researchLoop env maxDepth fuel topic st).state.currentDepth) := by
  intro fuel
  induction fuel with
  | zero => intro topic st e he; rw [researchLoop_zero] at he; cases he
  | succ fuel ih =>
    intro topic st e he
    by_cases hlt : st.currentDepth < maxDepth
    · cases htime : env.timeExceeded st.currentDepth with
      | true =>
        rw [researchLoop_time env maxDepth fuel topic st hlt htime] at he
        cases he
      | false =>
        cases hex : (runIteration env maxDepth topic st).exit with
        | brk =>
          rw [researchLoop_brk env maxDepth fuel topic st hlt htime hex] at he ⊢
          dsimp only at he ⊢
          rcases runIteration_events env maxDepth topic st e he with ⟨h1, h2, h3⟩
          have hd := runIteration_currentDepth env maxDepth topic st
          exact ⟨h1, h2, fun d hdep => (by rw [hd]; have := h3 d hdep; omega)⟩
        | thrown msg =>
          rw [researchLoop_thrown env maxDepth fuel topic st msg hlt htime hex] at he ⊢
          dsimp only at he ⊢
          rcases runIteration_events env maxDepth topic st e he with ⟨h1, h2, h3⟩
          have hd := runIteration_currentDepth env maxDepth topic st
          exact ⟨h1, h2, fun d hdep => (by rw [hd]; have := h3 d hdep; omega)⟩
        | cont =>
          rw [researchLoop_cont env maxDepth fuel topic st hlt htime hex] at he ⊢
          dsimp only at he ⊢
          have hd := runIteration_currentDepth env maxDepth topic st
          have hmono := (researchLoop_inv env maxDepth fuel
            (runIteration env maxDepth topic st).topic
            (runIteration env maxDepth topic st).state).1
          rcases List.mem_append.mp he with hi | hr
          · rcases runIteration_events env maxDepth topic st e hi with ⟨h1, h2, h3⟩
            exact ⟨h1, h2, fun d hdep => (by have := h3 d hdep; omega)⟩
          · rcases ih (runIteration env maxDepth topic st).topic
              (runIteration env maxDepth topic st).state e hr with ⟨h1, h2, h3⟩
            exact ⟨h1, h2, fun d hdep => (by have := h3 d hdep; omega)⟩
    · rw [researchLoop_done env maxDepth fuel topic st hlt] at he
      cases he

theorem researchLoop_checker (env : Env) (maxDepth : Nat) :
    ∀ fuel topic st,
      checkDepthOrder st.currentDepth
        (researchLoop env maxDepth fuel topic st).events = true ∧
      openedAfter st.currentDepth (researchLoop env maxDepth fuel topic st).events =
        (researchLoop env maxDepth fuel topic st).state.currentDepth := by
  intro fuel
  induction fuel with
  | zero => intro topic st; rw [researchLoop_zero]; exact ⟨rfl, rfl⟩
  | succ fuel ih =>
    intro topic st
    by_cases hlt : st.currentDepth < maxDepth
    · cases htime : env.timeExceeded st.currentDepth with
      | true =>
        rw [researchLoop_time env maxDepth fuel topic st hlt htime]
        exact ⟨rfl, rfl⟩
      | false =>
        cases hex : (runIteration env maxDepth topic st).exit with
        | brk =>
          rw [researchLoop_brk env maxDepth fuel topic st hlt htime hex]
          dsimp only
          rcases runIteration_checker env maxDepth topic st with ⟨h1, h2⟩
          rw [runIteration_currentDepth env maxDepth topic st]
          exact ⟨h1, h2⟩
        | thrown msg =>
          rw [researchLoop_thrown env maxDepth fuel topic st msg hlt htime hex]
          dsimp only
          rcases runIteration_checker env maxDepth topic st with ⟨h1, h2⟩
          rw [runIteration_currentDepth env maxDepth topic st]
          exact ⟨h1, h2⟩
        | cont =>
          rw [researchLoop_cont env maxDepth fuel topic st hlt htime hex]
          dsimp only
          rcases runIteration_checker env maxDepth topic st with ⟨h1, h2⟩
          rcases ih (runIteration env maxDepth topic st).topic
            (runIteration env maxDepth topic st).state with ⟨g1, g2⟩
          have hd := runIteration_currentDepth env maxDepth topic st
          rw [hd] at g1 g2
          constructor
          · rw [checkDepthOrder_append, h1, h2, g1]
            rfl
          · rw [openedAfter_append, h2, g2]
    · rw [researchLoop_done env maxDepth fuel topic st hlt]
      exact ⟨rfl, rfl⟩

/-! Unfolding lemmas for the whole `execute` body. -/

theorem execute_thrown (env : Env) (topic : String) (maxDepth : Nat) (msg : String)
    (h : (researchLoop env maxDepth maxDepth topic (initialState maxDepth)).thrown =
      some msg) :
    deepResearchExecute env topic maxDepth =
      (Event.progressInit maxDepth (maxDepth * 5) ::
        ((researchLoop env maxDepth maxDepth topic (initialState maxDepth)).events ++
          [Event.activityDelta
            { type := ActivityType.thought, status := ActivityStatus.error,
              message := "Research failed: " ++ msg,
              depth := (researchLoop env maxDepth maxDepth topic
                (initialState maxDepth)).state.currentDepth,
              completedSteps := (researchLoop env maxDepth maxDepth topic
                (initialState maxDepth)).state.completedSteps,
              totalSteps := (researchLoop env maxDepth maxDepth topic
                (initialState maxDepth)).state.totalExpectedSteps }]),
       { success := false, error := some msg,
         findings := (researchLoop env maxDepth maxDepth topic
           (initialState maxDepth)).state.findings,
         analysis := none,
         completedSteps := (researchLoop env maxDepth maxDepth topic
           (initialState maxDepth)).state.completedSteps,
         totalSteps := (researchLoop env maxDepth maxDepth topic
           (initialState maxDepth)).state.totalExpectedSteps }) := by
  simp only [deepResearchExecute, addActivityS]
  rw [h]
  dsimp only [initialState]

theorem execute_synth_error (env : Env) (topic : String) (maxDepth : Nat)
    (msg : String)
    (h1 : (researchLoop env maxDepth maxDepth topic (initialState maxDepth)).thrown =
      none)
    (h2 : env.synth = Except.error msg) :
    deepResearchExecute env topic maxDepth =
      (Event.progressInit maxDepth (maxDepth * 5) ::
        ((researchLoop env maxDepth maxDepth topic (initialState maxDepth)).events ++
          [Event.activityDelta
            { type := ActivityType.synthesis, status := ActivityStatus.pending,
              message := "Preparing final analysis",
              depth := (researchLoop env maxDepth maxDepth topic
                (initialState maxDepth)).state.currentDepth,
              completedSteps := (researchLoop env maxDepth maxDepth topic
                (initialState maxDepth)).state.completedSteps,
              totalSteps := (researchLoop env maxDepth maxDepth topic
                (initialState maxDepth)).state.totalExpectedSteps },
           Event.activityDelta
            { type := ActivityType.thought, status := ActivityStatus.error,
              message := "Research failed: " ++ msg,
              depth := (researchLoop env maxDepth maxDepth topic
                (initialState maxDepth)).state.currentDepth,
              completedSteps := (researchLoop env maxDepth maxDepth topic
                (initialState maxDepth)).state.completedSteps,
              totalSteps := (researchLoop env maxDepth maxDepth topic
                (initialState maxDepth)).state.totalExpectedSteps }]),
       { success := false, error := some msg,
         findings := (researchLoop env maxDepth maxDepth topic
           (initialState maxDepth)).state.findings,
         analysis := none,
         completedSteps := (researchLoop env maxDepth maxDepth topic
           (initialState maxDepth)).state.completedSteps,
         totalSteps := (researchLoop env maxDepth maxDepth topic
           (initialState maxDepth)).state.totalExpectedSteps }) := by
  simp only [deepResearchExecute, addActivityS]
  rw [h1, h2]
  dsimp only [initialState]

theorem execute_synth_ok (env : Env) (topic : String) (maxDepth : Nat)
    (text : String)
    (h1 : (researchLoop env maxDepth maxDepth topic (initialState maxDepth)).thrown =
      none)
    (h2 : env.synth = Except.ok text) :
    deepResearchExecute env topic maxDepth =
      (Event.progressInit maxDepth (maxDepth * 5) ::
        ((researchLoop env maxDepth maxDepth topic (initialState maxDepth)).events ++
          [Event.activityDelta
            { type := ActivityType.synthesis, status := ActivityStatus.pending,
              message := "Preparing final analysis",
              depth := (researchLoop env maxDepth maxDepth topic
                (initialState maxDepth)).state.currentDepth,
              completedSteps := (researchLoop env maxDepth maxDepth topic
                (initialState maxDepth)).state.completedSteps,
              totalSteps := (researchLoop env maxDepth maxDepth topic
                (initialState maxDepth)).state.totalExpectedSteps },
           Event.activityDelta
            { type := ActivityType.synthesis, status := ActivityStatus.complete,
              message := "Research completed",
              depth := (researchLoop env maxDepth maxDepth topic
                (initialState maxDepth)).state.currentDepth,
              completedSteps := (researchLoop env maxDepth maxDepth topic
                (initialState maxDepth)).state.completedSteps + 1,
              totalSteps := (researchLoop env maxDepth maxDepth topic
                (initialState maxDepth)).state.totalExpectedSteps },
           Event.finish text]),
       { success := true, error := none,
         findings := (researchLoop env maxDepth maxDepth topic
           (initialState maxDepth)).state.findings,
         analysis := some text,
         completedSteps := (researchLoop env maxDepth maxDepth topic
           (initialState maxDepth)).state.completedSteps + 1,
         totalSteps := (researchLoop env maxDepth maxDepth topic
           (initialState maxDepth)).state.totalExpectedSteps }) := by
  simp only [deepResearchExecute, addActivityS]
  rw [h1, h2]
  dsimp only [initialState]

/-! Claim theorems. -/

/-- C10: a fan-out batch entry that is the empty string (the case where
the Planner set no URL hint) produces no activity events at all — `new
URL('')` throws while the `pending` message is being built, before the
event is emitted — contributes zero findings, and does not touch
`failedAttempts`; the per-URL task never propagates an exception (the
fan-out is a total function whose only state change is
`completedSteps`).  Formally: with a parse oracle on which `""` throws,
the fan-out over `"" :: urls` equals the fan-out over `urls`, and a
fan-out never changes `failedAttempts`. -/
theorem claim_C10 (env : Env) (urls : List String) (st : ResearchState)
    (hp : env.parseUrl "" = none) :
    extractFromUrls env ("" :: urls) st = extractFromUrls env urls st ∧
    (extractFromUrls env urls st).1.failedAttempts = st.failedAttempts := by
  refine ⟨extractFromUrls_cons_invalid env urls st "" hp, ?_⟩
  rw [extractFromUrls_state]

/-- Witness for C10 at a concrete environment and batch. -/
theorem claim_C10_witness :
    extractFromUrls envW ("" :: ["https://a"]) (initialState 7) =
      extractFromUrls envW ["https://a"] (initialState 7) ∧
    (extractFromUrls envW ["https://a"] (initialState 7)).1.failedAttempts =
      (initialState 7).failedAttempts :=
  claim_C10 envW ["https://a"] (initialState 7) (by decide)

/-- C1 counterexample: in a concrete fan-out where the extract call for
`https://b` returns `success=false`, the code emits NO
`activity{extract, error}` event at all (the claim requires one whose
message includes the failing hostname); the three events emitted are
the two pendings and the one complete for `https://a`. -/
theorem claim_C1_counterexample :
    envExtractFail.extract (initialState 7).currentDepth "https://b" =
      ExtractCallOutcome.fail ∧
    ((extractFromUrls envExtractFail ["https://a", "https://b"]
      (initialState 7)).2.1.filter isExtractError) = [] ∧
    ((extractFromUrls envExtractFail ["https://a", "https://b"]
      (initialState 7)).2.1.length) = 3 := by decide

/-- C1 (amended): for every URL of a fan-out whose URL string parses,
the task emits `activity{extract, pending}` (`Analyzing <hostname>`)
when it starts and `activity{extract, complete}` (`Extracted from
<hostname>`) when its extract call succeeds; a failing extract call
(non-success or thrown) emits no event at all — in particular no
`activity{extract, error}` event ever appears in a fan-out trace — and
contributes no findings (no finding carries the failing URL as
`source`). -/
theorem claim_C1 (env : Env) (urls : List String) (st : ResearchState) :
    (∀ u hn, u ∈ urls → env.parseUrl u = some hn →
      Event.activityDelta
        { type := ActivityType.extract, status := ActivityStatus.pending,
          message := "Analyzing " ++ hn, depth := st.currentDepth,
          completedSteps := st.completedSteps,
          totalSteps := st.totalExpectedSteps } ∈
        (extractFromUrls env urls st).2.1) ∧
    (∀ u hn data, u ∈ urls → env.parseUrl u = some hn →
      env.extract st.currentDepth u = ExtractCallOutcome.ok data →
      ∃ a, Event.activityDelta a ∈ (extractFromUrls env urls st).2.1 ∧
        a.type = ActivityType.extract ∧ a.status = ActivityStatus.complete ∧
        a.message = "Extracted from " ++ hn) ∧
    (∀ a, Event.activityDelta a ∈ (extractFromUrls env urls st).2.1 →
      a.status ≠ ActivityStatus.error) ∧
    (∀ u, u ∈ urls →
      (∀ data, env.extract st.currentDepth u ≠ ExtractCallOutcome.ok data) →
      ∀ f ∈ (extractFromUrls env urls st).2.2, f.source ≠ u) := by
  refine ⟨?_, ?_, ?_, ?_⟩
  · intro u hn hu hp
    exact extractFromUrls_pending_mem env urls st u hn hu hp
  · intro u hn data hu hp he
    exact extractFromUrls_complete_mem env urls st u hn data hu hp he
  · intro a ha
    rcases extractFromUrls_activities env urls st _ ha with ⟨a', heq, _, hstat, _⟩
    cases heq
    exact hstat
  · intro u hu hne f hf hsrc
    rcases extractFromUrls_findings env urls st f hf with ⟨u', hu', hsrc', dta, hok⟩
    have huu : u' = u := hsrc'.symm.trans hsrc
    rw [huu] at hok
    exact hne dta hok

/-- Witness for C1 at a concrete environment and batch. -/
theorem claim_C1_witness :
    Event.activityDelta
      { type := ActivityType.extract, status := ActivityStatus.pending,
        message := "Analyzing " ++ "a", depth := (initialState 7).currentDepth,
        completedSteps := (initialState 7).completedSteps,
        totalSteps := (initialState 7).totalExpectedSteps } ∈
      (extractFromUrls envW ["https://a"] (initialState 7)).2.1 :=
  (claim_C1 envW ["https://a"] (initialState 7)).1 "https://a" "a"
    (by decide) (by decide)

/-- C5 counterexample: with `currentTopic = "a"` and
`nextSearchTopic = "b"`, `searchTopic` is `"b"` but the emitted
`activity{search, pending}` message is `Searching for "a"` — built from
the raw `topic`, not from `searchTopic`, and with extra quote
characters. -/
theorem claim_C5_counterexample :
    jsOr { initialState 7 with nextSearchTopic := "b" }.nextSearchTopic "a" = "b" ∧
    (runIteration envW 7 "a"
      { initialState 7 with nextSearchTopic := "b" }).events[1]? =
      some (Event.activityDelta
        { type := ActivityType.search, status := ActivityStatus.pending,
          message := "Searching for \"a\"", depth := 1, completedSteps := 0,
          totalSteps := 35 }) ∧
    ("Searching for \"a\"" ≠ ("Searching for " ++ "b")) ∧
    ("Searching for \"a\"" ≠ ("Searching for \"" ++ "b" ++ "\"")) := by decide

/-- C5 (amended): the `activity{search, pending}` message always quotes
the current `topic` (`Searching for "<topic>"`), not
`searchTopic = nextSearchTopic || topic`; the search call itself is
issued with `searchTopic`: when it fails, the error activity's message
is `Search failed for "<searchTopic>"`. -/
theorem claim_C5 (env : Env) (maxDepth : Nat) (topic : String) (st : ResearchState) :
    ((runIteration env maxDepth topic st).events[1]? =
      some (Event.activityDelta
        { type := ActivityType.search, status := ActivityStatus.pending,
          message := "Searching for \"" ++ topic ++ "\"",
          depth := st.currentDepth + 1, completedSteps := st.completedSteps,
          totalSteps := st.totalExpectedSteps })) ∧
    (env.search (st.currentDepth + 1) (jsOr st.nextSearchTopic topic) =
        SearchCallOutcome.fail →
      (runIteration env maxDepth topic st).events[2]? =
        some (Event.activityDelta
          { type := ActivityType.search, status := ActivityStatus.error,
            message := "Search failed for \"" ++ jsOr st.nextSearchTopic topic ++ "\"",
            depth := st.currentDepth + 1, completedSteps := st.completedSteps,
            totalSteps := st.totalExpectedSteps })) := by
  constructor
  · cases hs : env.search (st.currentDepth + 1) (jsOr st.nextSearchTopic topic) with
    | fail => rw [runIteration_search_fail env maxDepth topic st hs]; rfl
    | thrown msg => rw [runIteration_search_thrown env maxDepth topic st msg hs]; rfl
    | ok data =>
      cases hp : env.plan (st.currentDepth + 1) with
      | none => rw [runIteration_plan_none env maxDepth topic st data hs hp]; rfl
      | some a => rw [runIteration_plan_some env maxDepth topic st data a hs hp]; rfl
  · intro hs
    rw [runIteration_search_fail env maxDepth topic st hs]; rfl

/-- Witness for C5 at a concrete environment with a failing search. -/
theorem claim_C5_witness :
    ((runIteration envSearchFail 7 "a"
      { initialState 7 with nextSearchTopic := "b" }).events[1]? =
      some (Event.activityDelta
        { type := ActivityType.search, status := ActivityStatus.pending,
          message := "Searching for \"" ++ "a" ++ "\"", depth := 1,
          completedSteps := 0, totalSteps := 35 })) ∧
    ((runIteration envSearchFail 7 "a"
      { initialState 7 with nextSearchTopic := "b" }).events[2]? =
      some (Event.activityDelta
        { type := ActivityType.search, status := ActivityStatus.error,
          message := "Search failed for \"" ++
            jsOr { initialState 7 with nextSearchTopic := "b" }.nextSearchTopic "a" ++
            "\"",
          depth := 1, completedSteps := 0, totalSteps := 35 })) :=
  ⟨(claim_C5 envSearchFail 7 "a" { initialState 7 with nextSearchTopic := "b" }).1,
   (claim_C5 envSearchFail 7 "a" { initialState 7 with nextSearchTopic := "b" }).2
     (by decide)⟩

/-- C3 counterexample: with a failing Planner (`analyzeAndPlan` returns
`null`), the analysis phase still appends an element to `summaries` —
the empty string — via `summaries.push(analysis?.summary || '')`, which
runs before the `if (!analysis)` check; the claim says the sequence is
unchanged on failure. -/
theorem claim_C3_counterexample :
    envPlanFail.plan 1 = none ∧
    (initialState 7).summaries = [] ∧
    (runIteration envPlanFail 7 "t" (initialState 7)).state.summaries = [""] := by
  decide

/-- C3 (amended): on every analysis phase reached (search succeeded),
exactly one element is appended to `summaries`: the Planner's summary on
success and the empty string on failure; `nextSearchTopic` and
`urlToSearch` are likewise assigned on both outcomes (empty on failure
or when the optional field is absent); on a failed Planner call
`failedAttempts` is incremented. -/
theorem claim_C3 (env : Env) (maxDepth : Nat) (topic : String) (st : ResearchState)
    (data : List SearchResultItem)
    (hs : env.search (st.currentDepth + 1) (jsOr st.nextSearchTopic topic) =
      SearchCallOutcome.ok data) :
    ((runIteration env maxDepth topic st).state.summaries =
      st.summaries ++ [planSummary (env.plan (st.currentDepth + 1))]) ∧
    ((runIteration env maxDepth topic st).state.nextSearchTopic =
      planField (env.plan (st.currentDepth + 1)) (fun a => a.nextSearchTopic)) ∧
    ((runIteration env maxDepth topic st).state.urlToSearch =
      planField (env.plan (st.currentDepth + 1)) (fun a => a.urlToSearch)) ∧
    (env.plan (st.currentDepth + 1) = none →
      (runIteration env maxDepth topic st).state.failedAttempts =
        st.failedAttempts + 1) := by
  cases hp : env.plan (st.currentDepth + 1) with
  | none =>
    rw [runIteration_plan_none env maxDepth topic st data hs hp]
    refine ⟨?_, ?_, ?_, ?_⟩ <;> simp [planSummary, planField]
  | some a =>
    rw [runIteration_plan_some env maxDepth topic st data a hs hp]
    refine ⟨?_, ?_, ?_, ?_⟩ <;> simp [planSummary, planField]

/-- Witness for C3 at a concrete environment. -/
theorem claim_C3_witness :
    ((runIteration envW 7 "t" (initialState 7)).state.summaries =
      (initialState 7).summaries ++
        [planSummary (envW.plan ((initialState 7).currentDepth + 1))]) ∧
    ((runIteration envW 7 "t" (initialState 7)).state.nextSearchTopic =
      planField (envW.plan ((initialState 7).currentDepth + 1))
        (fun a => a.nextSearchTopic)) ∧
    ((runIteration envW 7 "t" (initialState 7)).state.urlToSearch =
      planField (envW.plan ((initialState 7).currentDepth + 1))
        (fun a => a.urlToSearch)) ∧
    (envW.plan ((initialState 7).currentDepth + 1) = none →
      (runIteration envW 7 "t" (initialState 7)).state.failedAttempts =
        (initialState 7).failedAttempts + 1) :=
  claim_C3 envW 7 "t" (initialState 7) [itemA, itemB] (by decide)

/-- C4 counterexample: with an empty `urlToSearch`, the fanned-out
batch is NOT just the search-derived URLs: the empty string is
prepended unconditionally. -/
theorem claim_C4_counterexample :
    extractBatch "" [itemA] = ["", "https://a"] ∧
    extractBatch "" [itemA] ≠ [itemA].map (fun r => r.url) ∧
    "" ∈ extractBatch "" [itemA] ∧ ¬ ("" ∈ [itemA].map (fun r => r.url)) := by
  decide

/-- C4 (amended): in every Extract phase the fanned-out batch is
`urlToSearch :: (first 3 search URLs)` — `urlToSearch` is prepended
unconditionally, also when it is empty (the empty entry then produces
no events or findings, its URL parse failing first).  The iteration's
events contain exactly the fan-out of that batch (no other
extract-typed activity), and the findings appended are that fan-out's
findings. -/
theorem claim_C4 (env : Env) (maxDepth : Nat) (topic : String) (st : ResearchState)
    (data : List SearchResultItem)
    (hs : env.search (st.currentDepth + 1) (jsOr st.nextSearchTopic topic) =
      SearchCallOutcome.ok data) :
    (∃ pre post,
      (runIteration env maxDepth topic st).events =
        pre ++ (extractFromUrls env (extractBatch st.urlToSearch data)
          { st with
            currentDepth := st.currentDepth + 1,
            completedSteps := st.completedSteps + 1 }).2.1 ++ post ∧
      (∀ a, Event.activityDelta a ∈ pre → a.type ≠ ActivityType.extract) ∧
      (∀ a, Event.activityDelta a ∈ post → a.type ≠ ActivityType.extract)) ∧
    (runIteration env maxDepth topic st).state.findings =
      st.findings ++ (extractFromUrls env (extractBatch st.urlToSearch data)
        { st with
          currentDepth := st.currentDepth + 1,
          completedSteps := st.completedSteps + 1 }).2.2 := by
  cases hp : env.plan (st.currentDepth + 1) with
  | none =>
    rw [runIteration_plan_none env maxDepth topic st data hs hp]
    refine ⟨⟨_, _, rfl, ?_, ?_⟩, rfl⟩
    · intro a ha
      simp only [List.mem_append, List.mem_cons, List.mem_map,
        List.not_mem_nil, or_false] at ha
      rcases ha with (h | h | h) | ⟨r, _, h⟩
      · cases h
      · cases h; simp
      · cases h; simp
      · cases h
    · intro a ha
      simp only [List.mem_cons, List.not_mem_nil, or_false] at ha
      rcases ha with h | h
      · cases h; simp
      · cases h; simp
  | some a =>
    rw [runIteration_plan_some env maxDepth topic st data a hs hp]
    refine ⟨⟨_, _, rfl, ?_, ?_⟩, rfl⟩
    · intro a' ha
      simp only [List.mem_append, List.mem_cons, List.mem_map,
        List.not_mem_nil, or_false] at ha
      rcases ha with (h | h | h) | ⟨r, _, h⟩
      · cases h
      · cases h; simp
      · cases h; simp
      · cases h
    · intro a' ha
      simp only [List.mem_cons, List.not_mem_nil, or_false] at ha
      rcases ha with h | h
      · cases h; simp
      · cases h; simp

/-- Witness for C4 at a concrete environment. -/
theorem claim_C4_witness :
    (runIteration envW 7 "t" (initialState 7)).state.findings =
      (initialState 7).findings ++
        (extractFromUrls envW
          (extractBatch (initialState 7).urlToSearch [itemA, itemB])
          { initialState 7 with
            currentDepth := (initialState 7).currentDepth + 1,
            completedSteps := (initialState 7).completedSteps + 1 }).2.2 :=
  (claim_C4 envW 7 "t" (initialState 7) [itemA, itemB] (by decide)).2

/-- C2 counterexample: a thrown search call is NOT counted into
`failedAttempts` and does not lead to a retry: the exception escapes
the loop to the outer catch and the invocation returns a failure
result (`success=false`, `error="boom"`, `failedAttempts` still 0). -/
theorem claim_C2_counterexample :
    (deepResearchExecute envSearchThrow "t" 7).2.success = false ∧
    (deepResearchExecute envSearchThrow "t" 7).2.error = some "boom" ∧
    (researchLoop envSearchThrow 7 7 "t" (initialState 7)).state.failedAttempts
      = 0 := by decide

/-- C2 (amended): a search call returning non-success, and a Planner
call returning non-success or throwing (both modelled by `plan = none`),
are counted into `failedAttempts` and — below the cap — the iteration
exits with `continue`, upon which the loop runs the next iteration; a
search call that THROWS, however, is not counted: its exception escapes
the loop (to the outer catch, so it still does not cross the
orchestrator boundary uncaught, but it ends the invocation with a
failure result). -/
theorem claim_C2 (env : Env) (maxDepth : Nat) (topic : String) (st : ResearchState) :
    (env.search (st.currentDepth + 1) (jsOr st.nextSearchTopic topic) =
        SearchCallOutcome.fail →
      st.failedAttempts + 1 < st.maxFailedAttempts →
      (runIteration env maxDepth topic st).exit = IterExit.cont ∧
      (runIteration env maxDepth topic st).state.failedAttempts =
        st.failedAttempts + 1) ∧
    (∀ data, env.search (st.currentDepth + 1) (jsOr st.nextSearchTopic topic) =
        SearchCallOutcome.ok data →
      env.plan (st.currentDepth + 1) = none →
      st.failedAttempts + 1 < st.maxFailedAttempts →
      (runIteration env maxDepth topic st).exit = IterExit.cont ∧
      (runIteration env maxDepth topic st).state.failedAttempts =
        st.failedAttempts + 1) ∧
    (∀ msg, env.search (st.currentDepth + 1) (jsOr st.nextSearchTopic topic) =
        SearchCallOutcome.thrown msg →
      (runIteration env maxDepth topic st).exit = IterExit.thrown msg) ∧
    (∀ fuel, st.currentDepth < maxDepth →
      env.timeExceeded st.currentDepth = false →
      (runIteration env maxDepth topic st).exit = IterExit.cont →
      researchLoop env maxDepth (fuel + 1) topic st =
        { events := (runIteration env maxDepth topic st).events ++
            (researchLoop env maxDepth fuel (runIteration env maxDepth topic st).topic
              (runIteration env maxDepth topic st).state).events,
          topic := (researchLoop env maxDepth fuel
            (runIteration env maxDepth topic st).topic
            (runIteration env maxDepth topic st).state).topic,
          state := (researchLoop env maxDepth fuel
            (runIteration env maxDepth topic st).topic
            (runIteration env maxDepth topic st).state).state,
          thrown := (researchLoop env maxDepth fuel
            (runIteration env maxDepth topic st).topic
            (runIteration env maxDepth topic st).state).thrown }) := by
  refine ⟨?_, ?_, ?_, ?_⟩
  · intro hs hcap
    rw [runIteration_search_fail env maxDepth topic st hs]
    dsimp only
    rw [if_neg (by omega)]
    exact ⟨rfl, rfl⟩
  · intro data hs hp hcap
    rw [runIteration_plan_none env maxDepth topic st data hs hp]
    dsimp only
    rw [if_neg (by omega)]
    exact ⟨rfl, rfl⟩
  · intro msg hs
    rw [runIteration_search_thrown env maxDepth topic st msg hs]
  · intro fuel hlt htime hex
    exact researchLoop_cont env maxDepth fuel topic st hlt htime hex

/-- Witness for C2 at a concrete environment with a failing search. -/
theorem claim_C2_witness :
    (runIteration envSearchFail 7 "t" (initialState 7)).exit = IterExit.cont ∧
    (runIteration envSearchFail 7 "t" (initialState 7)).state.failedAttempts =
      (initialState 7).failedAttempts + 1 :=
  (claim_C2 envSearchFail 7 "t" (initialState 7)).1 (by decide) (by decide)

/-- C9: when `failedAttempts` reaches `maxFailedAttempts` the iteration
exits with `break` (for both the search-failure and the
Planner-failure count), yet whenever the loop ends without a thrown
exception the Synthesizer phase still runs — the event right after the
loop's events is `activity{synthesis, pending}` — and the invocation
can still return `success=true` with `finish` as the last event:
witnessed by three consecutive Planner failures. -/
theorem claim_C9 (env : Env) (maxDepth : Nat) (topic : String) (st : ResearchState) :
    (env.search (st.currentDepth + 1) (jsOr st.nextSearchTopic topic) =
        SearchCallOutcome.fail →
      st.maxFailedAttempts ≤ st.failedAttempts + 1 →
      (runIteration env maxDepth topic st).exit = IterExit.brk) ∧
    (∀ data, env.search (st.currentDepth + 1) (jsOr st.nextSearchTopic topic) =
        SearchCallOutcome.ok data →
      env.plan (st.currentDepth + 1) = none →
      st.maxFailedAttempts ≤ st.failedAttempts + 1 →
      (runIteration env maxDepth topic st).exit = IterExit.brk) ∧
    ((researchLoop env maxDepth maxDepth topic (initialState maxDepth)).thrown =
        none →
      (deepResearchExecute env topic maxDepth).1[
        1 + (researchLoop env maxDepth maxDepth topic
          (initialState maxDepth)).events.length]? =
        some (Event.activityDelta
          { type := ActivityType.synthesis, status := ActivityStatus.pending,
            message := "Preparing final analysis",
            depth := (researchLoop env maxDepth maxDepth topic
              (initialState maxDepth)).state.currentDepth,
            completedSteps := (researchLoop env maxDepth maxDepth topic
              (initialState maxDepth)).state.completedSteps,
            totalSteps := (researchLoop env maxDepth maxDepth topic
              (initialState maxDepth)).state.totalExpectedSteps })) ∧
    ((researchLoop envPlanFail 7 7 "t" (initialState 7)).state.failedAttempts = 3 ∧
     (deepResearchExecute envPlanFail "t" 7).2.success = true ∧
     (deepResearchExecute envPlanFail "t" 7).1.getLast? =
       some (Event.finish "FINAL")) := by
  refine ⟨?_, ?_, ?_, by decide⟩
  · intro hs hcap
    rw [runIteration_search_fail env maxDepth topic st hs]
    dsimp only
    rw [if_pos (by omega)]
  · intro data hs hp hcap
    rw [runIteration_plan_none env maxDepth topic st data hs hp]
    dsimp only
    rw [if_pos (by omega)]
  · intro hthrown
    simp only [deepResearchExecute]
    rw [hthrown]
    cases hsy : env.synth with
    | error msg =>
      dsimp only [addActivityS]
      rw [Nat.add_comm 1 _]
      simp only [List.getElem?_cons_succ]
      rw [List.getElem?_append_right (le_refl _)]
      simp
    | ok text =>
      dsimp only [addActivityS]
      rw [Nat.add_comm 1 _]
      simp only [List.getElem?_cons_succ]
      rw [List.getElem?_append_right (le_refl _)]
      simp

/-- Witness for C9 at concrete environments at the failure cap. -/
theorem claim_C9_witness :
    (runIteration envSearchFail 7 "t"
      { initialState 7 with failedAttempts := 2 }).exit = IterExit.brk ∧
    (runIteration envPlanFail 7 "t"
      { initialState 7 with failedAttempts := 2 }).exit = IterExit.brk ∧
    (deepResearchExecute envPlanFail "t" 7).1[
      1 + (researchLoop envPlanFail 7 7 "t" (initialState 7)).events.length]? =
      some (Event.activityDelta
        { type := ActivityType.synthesis, status := ActivityStatus.pending,
          message := "Preparing final analysis",
          depth := (researchLoop envPlanFail 7 7 "t"
            (initialState 7)).state.currentDepth,
          completedSteps := (researchLoop envPlanFail 7 7 "t"
            (initialState 7)).state.completedSteps,
          totalSteps := (researchLoop envPlanFail 7 7 "t"
            (initialState 7)).state.totalExpectedSteps }) :=
  ⟨(claim_C9 envSearchFail 7 "t" { initialState 7 with failedAttempts := 2 }).1
      (by decide) (by decide),
   (claim_C9 envPlanFail 7 "t" { initialState 7 with failedAttempts := 2 }).2.1
      [itemA, itemB] (by decide) (by decide) (by decide),
   (claim_C9 envPlanFail 7 "t" (initialState 7)).2.2.1 (by decide)⟩

/-- C7: `currentDepth` advances by exactly one per iteration entered, is
monotonically non-decreasing over the loop, never exceeds `maxDepth`
(being a `Nat` it is also never below 0), and every depth recorded on an
emitted event (a `depth-delta`'s `current` or an activity's `depth`) is
at most `maxDepth`. -/
theorem claim_C7 (env : Env) (maxDepth fuel : Nat) (topic : String)
    (st : ResearchState) :
    ((runIteration env maxDepth topic st).state.currentDepth = st.currentDepth + 1) ∧
    (st.currentDepth ≤ (researchLoop env maxDepth fuel topic st).state.currentDepth) ∧
    (st.currentDepth ≤ maxDepth →
      (researchLoop env maxDepth fuel topic st).state.currentDepth ≤ maxDepth) ∧
    (∀ e ∈ (deepResearchExecute env topic maxDepth).1, ∀ d,
      eventDepth e = some d → d ≤ maxDepth) := by
  obtain ⟨hm, hb, -, -, -⟩ := researchLoop_inv env maxDepth fuel topic st
  refine ⟨runIteration_currentDepth env maxDepth topic st, hm, hb, ?_⟩
  have hbound : (researchLoop env maxDepth maxDepth topic
      (initialState maxDepth)).state.currentDepth ≤ maxDepth :=
    (researchLoop_inv env maxDepth maxDepth topic (initialState maxDepth)).2.1
      (Nat.zero_le maxDepth)
  have hloop := researchLoop_events env maxDepth maxDepth topic (initialState maxDepth)
  intro e he d hd
  cases hth : (researchLoop env maxDepth maxDepth topic (initialState maxDepth)).thrown with
  | some msg =>
    rw [execute_thrown env topic maxDepth msg hth] at he
    simp only [List.mem_cons, List.mem_append, List.not_mem_nil, or_false] at he
    rcases he with rfl | he | rfl
    · simp [eventDepth] at hd
    · have := (hloop e he).2.2 d hd
      omega
    · simp only [eventDepth, Option.some.injEq] at hd
      omega
  | none =>
    cases hsy : env.synth with
    | error msg =>
      rw [execute_synth_error env topic maxDepth msg hth hsy] at he
      simp only [List.mem_cons, List.mem_append, List.not_mem_nil, or_false] at he
      rcases he with rfl | he | rfl | rfl
      · simp [eventDepth] at hd
      · have := (hloop e he).2.2 d hd
        omega
      · simp only [eventDepth, Option.some.injEq] at hd
        omega
      · simp only [eventDepth, Option.some.injEq] at hd
        omega
    | ok text =>
      rw [execute_synth_ok env topic maxDepth text hth hsy] at he
      simp only [List.mem_cons, List.mem_append, List.not_mem_nil, or_false] at he
      rcases he with rfl | he | rfl | rfl | rfl
      · simp [eventDepth] at hd
      · have := (hloop e he).2.2 d hd
        omega
      · simp only [eventDepth, Option.some.injEq] at hd
        omega
      · simp only [eventDepth, Option.some.injEq] at hd
        omega
      · simp [eventDepth] at hd

/-- Witness for C7 at a concrete environment. -/
theorem claim_C7_witness :
    ((runIteration envW 7 "t" (initialState 7)).state.currentDepth =
      (initialState 7).currentDepth + 1) ∧
    ((researchLoop envW 7 7 "t" (initialState 7)).state.currentDepth ≤ 7) ∧
    ((1 : Nat) ≤ 7) :=
  ⟨(claim_C7 envW 7 7 "t" (initialState 7)).1,
   (claim_C7 envW 7 7 "t" (initialState 7)).2.2.1 (by decide),
   (claim_C7 envW 7 7 "t" (initialState 7)).2.2.2 (Event.depthDelta 1 7 0 35)
     (by decide) 1 (by decide)⟩

/-- C8: the `completedSteps` field of the returned result equals the
number of `activity-delta` events with `status=complete` in the emitted
trace; `addActivity` increments the counter exactly on `complete`
(pending and error activities leave it unchanged). -/
theorem claim_C8 (env : Env) (topic : String) (maxDepth : Nat) :
    ((deepResearchExecute env topic maxDepth).2.completedSteps =
      countComplete (deepResearchExecute env topic maxDepth).1) ∧
    (∀ st t s m, s ≠ ActivityStatus.complete →
      (addActivityS st t s m).1.completedSteps = st.completedSteps) ∧
    (∀ st t m, (addActivityS st t ActivityStatus.complete m).1.completedSteps =
      st.completedSteps + 1) := by
  have hr := (researchLoop_inv env maxDepth maxDepth topic (initialState maxDepth)).2.2.2.2
  have hr' : (researchLoop env maxDepth maxDepth topic
      (initialState maxDepth)).state.completedSteps =
      countComplete (researchLoop env maxDepth maxDepth topic
        (initialState maxDepth)).events := by
    rw [hr]
    dsimp only [initialState]
    omega
  refine ⟨?_, ?_, ?_⟩
  · cases hth : (researchLoop env maxDepth maxDepth topic (initialState maxDepth)).thrown with
    | some msg =>
      rw [execute_thrown env topic maxDepth msg hth]
      dsimp only
      simp only [countComplete, List.filter_cons, List.filter_append,
        isCompleteActivity, List.length_append]
      simp only [countComplete] at hr'
      simp [hr']
    | none =>
      cases hsy : env.synth with
      | error msg =>
        rw [execute_synth_error env topic maxDepth msg hth hsy]
        dsimp only
        simp only [countComplete, List.filter_cons, List.filter_append,
          isCompleteActivity, List.length_append]
        simp only [countComplete] at hr'
        simp [hr']
      | ok text =>
        rw [execute_synth_ok env topic maxDepth text hth hsy]
        dsimp only
        simp only [countComplete, List.filter_cons, List.filter_append,
          isCompleteActivity, List.length_append]
        simp only [countComplete] at hr'
        simp [hr']
  · intro st t s m hs
    cases s with
    | pending => rfl
    | complete => exact absurd rfl hs
    | error => rfl
  · intro st t m
    rfl

/-- Witness for C8 at a concrete environment. -/
theorem claim_C8_witness :
    ((deepResearchExecute envW "t" 1).2.completedSteps =
      countComplete (deepResearchExecute envW "t" 1).1) ∧
    ((addActivityS (initialState 1) ActivityType.search ActivityStatus.pending
      "m").1.completedSteps = (initialState 1).completedSteps) :=
  ⟨(claim_C8 envW "t" 1).1,
   (claim_C8 envW "t" 1).2.1 (initialState 1) ActivityType.search
     ActivityStatus.pending "m" (by decide)⟩

theorem getLast?_shape (x p q r : Event) (A : List Event) :
    (x :: (A ++ [p, q, r])).getLast? = some r := by
  rw [show x :: (A ++ [p, q, r]) = (x :: (A ++ [p, q])) ++ [r] by simp]
  rw [List.getLast?_concat]

theorem countFinish_zero (l : List Event) (h : ∀ e ∈ l, isFinish e = false) :
    countFinish l = 0 := by
  simp only [countFinish, List.length_eq_zero, List.filter_eq_nil_iff]
  intro e he
  simp [h e he]

/-- C6: the emitted event sequence is well-ordered: the first event is
`progress-init` and no other `progress-init` is ever emitted; when the
invocation returns `success=true` the last event is the unique `finish`
event (carrying the synthesis text); and the depth grammar holds: the
`depth-delta` events announce depths 1, 2, 3, ... in order (at most one
per depth, exactly one per opened depth), and every activity event is
tagged with an already-announced depth (checked by `checkDepthOrder`). -/
theorem claim_C6 (env : Env) (topic : String) (maxDepth : Nat) :
    ((deepResearchExecute env topic maxDepth).1.head? =
      some (Event.progressInit maxDepth (maxDepth * 5))) ∧
    (∀ e ∈ (deepResearchExecute env topic maxDepth).1.tail,
      isProgressInit e = false) ∧
    ((deepResearchExecute env topic maxDepth).2.success = true →
      (deepResearchExecute env topic maxDepth).1.getLast? =
        ((deepResearchExecute env topic maxDepth).2.analysis).map Event.finish ∧
      countFinish (deepResearchExecute env topic maxDepth).1 = 1) ∧
    (checkDepthOrder 0 (deepResearchExecute env topic maxDepth).1 = true) ∧
    (∀ d, countDepthDelta (deepResearchExecute env topic maxDepth).1 d ≤ 1) ∧
    (∀ d, 0 < d → d ≤ openedAfter 0 (deepResearchExecute env topic maxDepth).1 →
      countDepthDelta (deepResearchExecute env topic maxDepth).1 d = 1) := by
  have hloopev := researchLoop_events env maxDepth maxDepth topic (initialState maxDepth)
  have hck1 : checkDepthOrder 0
      (researchLoop env maxDepth maxDepth topic (initialState maxDepth)).events =
      true := by
    have := (researchLoop_checker env maxDepth maxDepth topic (initialState maxDepth)).1
    simpa [initialState] using this
  have hck2 : openedAfter 0
      (researchLoop env maxDepth maxDepth topic (initialState maxDepth)).events =
      (researchLoop env maxDepth maxDepth topic
        (initialState maxDepth)).state.currentDepth := by
    have := (researchLoop_checker env maxDepth maxDepth topic (initialState maxDepth)).2
    simpa [initialState] using this
  have hFin : countFinish
      (researchLoop env maxDepth maxDepth topic (initialState maxDepth)).events = 0 :=
    countFinish_zero _ (fun e he => (hloopev e he).1)
  cases hth : (researchLoop env maxDepth maxDepth topic (initialState maxDepth)).thrown with
  | some msg =>
    rw [execute_thrown env topic maxDepth msg hth]
    have hcheck : checkDepthOrder 0
        (Event.progressInit maxDepth (maxDepth * 5) ::
          ((researchLoop env maxDepth maxDepth topic (initialState maxDepth)).events ++
            [Event.activityDelta
              { type := ActivityType.thought, status := ActivityStatus.error,
                message := "Research failed: " ++ msg,
                depth := (researchLoop env maxDepth maxDepth topic
                  (initialState maxDepth)).state.currentDepth,
                completedSteps := (researchLoop env maxDepth maxDepth topic
                  (initialState maxDepth)).state.completedSteps,
                totalSteps := (researchLoop env maxDepth maxDepth topic
                  (initialState maxDepth)).state.totalExpectedSteps }])) = true := by
      simp [checkDepthOrder, checkDepthOrder_append, hck1, hck2, openedAfter]
    refine ⟨rfl, ?_, ?_, hcheck, countDepthDelta_le_one 0 _ hcheck,
      countDepthDelta_one_of_opened 0 _ hcheck⟩
    · intro e he
      simp only [List.tail_cons, List.mem_append, List.mem_cons,
        List.not_mem_nil, or_false] at he
      rcases he with he | rfl
      · exact (hloopev e he).2.1
      · rfl
    · intro h
      exact Bool.noConfusion h
  | none =>
    cases hsy : env.synth with
    | error msg =>
      rw [execute_synth_error env topic maxDepth msg hth hsy]
      have hcheck : checkDepthOrder 0
          (Event.progressInit maxDepth (maxDepth * 5) ::
            ((researchLoop env maxDepth maxDepth topic (initialState maxDepth)).events ++
              [Event.activityDelta
                { type := ActivityType.synthesis, status := ActivityStatus.pending,
                  message := "Preparing final analysis",
                  depth := (researchLoop env maxDepth maxDepth topic
                    (initialState maxDepth)).state.currentDepth,
                  completedSteps := (researchLoop env maxDepth maxDepth topic
                    (initialState maxDepth)).state.completedSteps,
                  totalSteps := (researchLoop env maxDepth maxDepth topic
                    (initialState maxDepth)).state.totalExpectedSteps },
               Event.activityDelta
                { type := ActivityType.thought, status := ActivityStatus.error,
                  message := "Research failed: " ++ msg,
                  depth := (researchLoop env maxDepth maxDepth topic
                    (initialState maxDepth)).state.currentDepth,
                  completedSteps := (researchLoop env maxDepth maxDepth topic
                    (initialState maxDepth)).state.completedSteps,
                  totalSteps := (researchLoop env maxDepth maxDepth topic
                    (initialState maxDepth)).state.totalExpectedSteps }])) = true := by
        simp [checkDepthOrder, checkDepthOrder_append, hck1, hck2, openedAfter]
      refine ⟨rfl, ?_, ?_, hcheck, countDepthDelta_le_one 0 _ hcheck,
        countDepthDelta_one_of_opened 0 _ hcheck⟩
      · intro e he
        simp only [List.tail_cons, List.mem_append, List.mem_cons,
          List.not_mem_nil, or_false] at he
        rcases he with he | rfl | rfl
        · exact (hloopev e he).2.1
        · rfl
        · rfl
      · intro h
        exact Bool.noConfusion h
    | ok text =>
      rw [execute_synth_ok env topic maxDepth text hth hsy]
      have hcheck : checkDepthOrder 0
          (Event.progressInit maxDepth (maxDepth * 5) ::
            ((researchLoop env maxDepth maxDepth topic (initialState maxDepth)).events ++
              [Event.activityDelta
                { type := ActivityType.synthesis, status := ActivityStatus.pending,
                  message := "Preparing final analysis",
                  depth := (researchLoop env maxDepth maxDepth topic
                    (initialState maxDepth)).state.currentDepth,
                  completedSteps := (researchLoop env maxDepth maxDepth topic
                    (initialState maxDepth)).state.completedSteps,
                  totalSteps := (researchLoop env maxDepth maxDepth topic
                    (initialState maxDepth)).state.totalExpectedSteps },
               Event.activityDelta
                { type := ActivityType.synthesis, status := ActivityStatus.complete,
                  message := "Research completed",
                  depth := (researchLoop env maxDepth maxDepth topic
                    (initialState maxDepth)).state.currentDepth,
                  completedSteps := (researchLoop env maxDepth maxDepth topic
                    (initialState maxDepth)).state.completedSteps + 1,
                  totalSteps := (researchLoop env maxDepth maxDepth topic
                    (initialState maxDepth)).state.totalExpectedSteps },
               Event.finish text])) = true := by
        simp [checkDepthOrder, checkDepthOrder_append, hck1, hck2, openedAfter]
      refine ⟨rfl, ?_, ?_, hcheck, countDepthDelta_le_one 0 _ hcheck,
        countDepthDelta_one_of_opened 0 _ hcheck⟩
      · intro e he
        simp only [List.tail_cons, List.mem_append, List.mem_cons,
          List.not_mem_nil, or_false] at he
        rcases he with he | rfl | rfl | rfl
        · exact (hloopev e he).2.1
        · rfl
        · rfl
        · rfl
      · intro _
        constructor
        · exact getLast?_shape _ _ _ _ _
        · simp only [countFinish, List.filter_cons, List.filter_append,
            List.length_append, isFinish]
          simp only [countFinish] at hFin
          simp [hFin]

/-- Witness for C6 at a concrete environment. -/
theorem claim_C6_witness :
    ((deepResearchExecute envW "t" 1).1.head? =
      some (Event.progressInit 1 (1 * 5))) ∧
    ((deepResearchExecute envW "t" 1).1.getLast? =
      ((deepResearchExecute envW "t" 1).2.analysis).map Event.finish ∧
      countFinish (deepResearchExecute envW "t" 1).1 = 1) ∧
    (checkDepthOrder 0 (deepResearchExecute envW "t" 1).1 = true) :=
  ⟨(claim_C6 envW "t" 1).1,
   (claim_C6 envW "t" 1).2.2.1 (by decide),
   (claim_C6 envW "t" 1).2.2.2.1⟩

end DeepResearch
